import Mathlib

/-!
Shallow embedding of the dcgm-exporter GPU collector core
(`pkg/dcgmexporter/gpu_collector.go` and the unnamed collector source file)
and verification of the frozen claims about it.

Modelling conventions:
* Go `float64` values are modelled as exact rationals (`ℚ`).  For the one
  place where non-finite float behaviour matters (the `x != x` NaN test in
  `processMigCacheForPower`), the embedding carries the IEEE case analysis
  explicitly: with finite operands, `a / b` is NaN exactly when `a = 0` and
  `b = 0`, and infinite when `a ≠ 0` and `b = 0`.
* Go runtime panics (index out of range) are modelled explicitly: functions
  that can panic return an `Option` (with `none` = panic) or a `GoRes`
  (with `.crash` = panic).
* Go maps are modelled as functions into `Option`, so that presence of a
  key (`v, ok := m[k]`) is observable; map iteration order never matters in
  the claims.
-/

set_option maxHeartbeats 1000000

namespace DcgmExporter

/-- Result of a Go computation that may panic (`crash`), return an error
value (`err`), or succeed (`ok`). -/
inductive GoRes (α : Type) where
  | crash : GoRes α
  | err : String → GoRes α
  | ok : α → GoRes α
deriving DecidableEq

/-- Modelled from the spec: the canonical "skip" marker returned by the
value normalizer for blank/not-found/not-supported/not-permissioned
samples.  The constant itself is declared in a repository file that is not
part of `src/`; the spec only requires it to be a distinguished marker
distinct from the conversion-failure marker. -/
def SkipDCGMValue : String := "SKIPPING DCGM VALUE"

/-- Modelled from the spec: the distinct "conversion failed" marker
returned by the value normalizer for unrecognized sample kinds.  Declared
outside `src/`; the spec requires it to differ from the skip marker. -/
def FailedToConvert : String := "ERROR - FAILED TO CONVERT TO STRING"

/-- Field type tag for 64-bit integer samples (`dcgm.DCGM_FT_INT64`). -/
def DCGM_FT_INT64 : Nat := 105

/-- Field type tag for double samples (`dcgm.DCGM_FT_DOUBLE`). -/
def DCGM_FT_DOUBLE : Nat := 100

/-- Field type tag for string samples (`dcgm.DCGM_FT_STRING`). -/
def DCGM_FT_STRING : Nat := 115

/-- The 32-bit integer sentinel `dcgm.DCGM_FT_INT32_BLANK`. -/
def DCGM_FT_INT32_BLANK : Int := 2147483632

/-- The 64-bit integer sentinel `dcgm.DCGM_FT_INT64_BLANK`. -/
def DCGM_FT_INT64_BLANK : Int := 9223372036854775792

/-- The double sentinel `dcgm.DCGM_FT_FP64_BLANK`. -/
def DCGM_FT_FP64_BLANK : ℚ := 140737488355328

/-- The recognized int64-sample sentinel codes, in source case order:
32-bit blank / not-found / not-supported / not-permissioned, then their
64-bit counterparts. -/
def int64Sentinels : List Int :=
  [DCGM_FT_INT32_BLANK, DCGM_FT_INT32_BLANK + 1, DCGM_FT_INT32_BLANK + 2,
   DCGM_FT_INT32_BLANK + 3,
   DCGM_FT_INT64_BLANK, DCGM_FT_INT64_BLANK + 1, DCGM_FT_INT64_BLANK + 2,
   DCGM_FT_INT64_BLANK + 3]

/-- The recognized double-sample sentinel codes: blank / not-found /
not-supported / not-permissioned. -/
def fp64Sentinels : List ℚ :=
  [DCGM_FT_FP64_BLANK, DCGM_FT_FP64_BLANK + 1, DCGM_FT_FP64_BLANK + 2,
   DCGM_FT_FP64_BLANK + 3]

/-- The recognized string-sample sentinel payloads. -/
def strSentinels : List String :=
  ["<<<NULL>>>", "<<<NOT_FOUND>>>", "<<<NOT_SUPPORTED>>>",
   "<<<NOT_PERMISSIONED>>>"]

/-- One raw typed sample (`dcgm.FieldValue_v1`).  The Go struct stores an
untyped byte payload reinterpreted by the accessor methods `Int64()`,
`Float64()` and `String()`; the embedding carries the three views as
fields, of which `ToString` reads only the one selected by `fieldType`. -/
structure FieldValue where
  fieldId : Nat
  fieldType : Nat
  int64 : Int
  float64 : ℚ
  strVal : String
deriving DecidableEq

/-- Left-pads a decimal digit string to six digits, for the fractional
part of fixed-precision formatting. -/
def natPad6 (n : Nat) : String :=
  let s := Nat.repr n
  String.mk (List.replicate (6 - s.length) '0') ++ s

/-- Embeds Go `fmt.Sprintf("%f", x)` on finite values: sign, integer part,
and exactly six fractional digits.  Ties (exact half-units of the sixth
digit, which a binary float almost never produces) round away from zero
in this model. -/
def formatF (q : ℚ) : String :=
  let sgn := if q < 0 then "-" else ""
  let n : Nat := (q.num.natAbs * 1000000 * 2 + q.den) / (2 * q.den)
  sgn ++ Nat.repr (n / 1000000) ++ "." ++ natPad6 (n % 1000000)

/-- Numeric value of a digit list, most significant first. -/
def digitsVal (l : List Char) : Nat :=
  l.foldl (fun a c => a * 10 + (c.toNat - 48)) 0

/-- Embeds `strconv.ParseFloat(s, 64)` on the plain decimal subset that
the collector feeds it (an optional sign, then digits with an optional
fractional part); anything else fails with `none`. -/
def parseFloat (s : String) : Option ℚ :=
  let p : (ℚ × List Char) :=
    match s.data with
    | '-' :: r => (-1, r)
    | '+' :: r => (1, r)
    | r => (1, r)
  let intPart := p.2.takeWhile Char.isDigit
  let rest := p.2.dropWhile Char.isDigit
  match rest with
  | [] => if intPart.isEmpty then none else some (p.1 * (digitsVal intPart : ℚ))
  | '.' :: frac =>
    if frac.all Char.isDigit && !(intPart.isEmpty && frac.isEmpty) then
      some (p.1 * ((digitsVal intPart : ℚ) +
        (digitsVal frac : ℚ) / (10 : ℚ) ^ frac.length))
    else none
  | _ => none

/-- Embeds `strconv.Atoi` applied to a one-character string (the way the
source parses `string(profile[0])`): succeeds exactly on a decimal digit. -/
def atoiChar (c : Char) : Option Nat :=
  if c.isDigit then some (c.toNat - 48) else none

/-- The value normalizer `ToString`: sentinel payloads map to the skip
marker, other recognized payloads to their canonical string, and samples
of unrecognized field type to the conversion-failure marker. -/
def ToString (value : FieldValue) : String :=
  if value.fieldType = DCGM_FT_INT64 then
    if value.int64 ∈ int64Sentinels then SkipDCGMValue else Int.repr value.int64
  else if value.fieldType = DCGM_FT_DOUBLE then
    if value.float64 ∈ fp64Sentinels then SkipDCGMValue else formatF value.float64
  else if value.fieldType = DCGM_FT_STRING then
    if value.strVal ∈ strSentinels then SkipDCGMValue else value.strVal
  else FailedToConvert

/-- The five per-instance utilization fractions (`MigResourceCache` in the
source): tensor, memory bandwidth, and the fp64/fp32/fp16 pipelines. -/
structure MigResourceCache where
  tensor : ℚ
  dram : ℚ
  fp64 : ℚ
  fp32 : ℚ
  fp16 : ℚ
deriving DecidableEq

/-- One per-instance cache entry (`MigResources` in the source): the five
utilization fractions, the MIG profile name, and the stringified NVML
instance id. -/
structure MigResources where
  resourceCache : MigResourceCache
  profile : String
  id : String
deriving DecidableEq

/-- The fixed per-dimension weight table from `processMigCacheForPower`. -/
def featureWeights : MigResourceCache := ⟨0.338, 0.152, 0.17, 0.17, 0.17⟩

/-- Componentwise addition of the five utilization dimensions (the
`totalResource.X += ...` accumulation). -/
def addCache (a b : MigResourceCache) : MigResourceCache :=
  ⟨a.tensor + b.tensor, a.dram + b.dram, a.fp64 + b.fp64,
   a.fp32 + b.fp32, a.fp16 + b.fp16⟩

/-- Sum of the five dimensions of one cache record (the
`summed_total_metrics` / `summed_instance_metrics` expressions). -/
def cacheSum (r : MigResourceCache) : ℚ :=
  r.tensor + r.dram + r.fp64 + r.fp32 + r.fp16

/-- One iteration body of the `processMigCacheForPower` loop: each
dimension scaled by the sample's own slice count and the fixed weight. -/
def weightedEntry (sf : ℚ) (r : MigResourceCache) : MigResourceCache :=
  ⟨r.tensor * sf * featureWeights.tensor,
   r.dram * sf * featureWeights.dram,
   r.fp64 * sf * featureWeights.fp64,
   r.fp32 * sf * featureWeights.fp32,
   r.fp16 * sf * featureWeights.fp16⟩

/-- The loop of `processMigCacheForPower`: walks the GPU's cache entries,
parses each entry's slice count from `device.Profile[0]` (a panic on an
empty profile, an error return on a non-digit), accumulates the weighted
per-dimension totals, and remembers the (weighted) entry whose `ID`
matches the target instance. -/
def migLoop (id : String) :
    List MigResources → MigResourceCache → MigResources →
    GoRes (MigResourceCache × MigResources)
  | [], total, inst => .ok (total, inst)
  | device :: rest, total, inst =>
    match device.profile.data.head? with
    | none => .crash
    | some ch =>
      match atoiChar ch with
      | none => .err "No profile scaling factor found"
      | some s =>
        let w := weightedEntry (s : ℚ) device.resourceCache
        migLoop id rest (addCache total w)
          (if device.id = id then { device with resourceCache := w } else inst)

/-- Embeds `processMigCacheForPower`: computes the target instance's share of the
GPU's active power, weighted by utilization.  `.ok none` models a
non-finite (infinite) float result; the source's NaN self-inequality test
becomes the explicit `0 / 0` case, which returns the error that triggers
the caller's naive fallback. -/
def processMigCacheForPower (m : List MigResources) (id : String)
    (active_power : ℚ) : GoRes (Option ℚ) :=
  match migLoop id m ⟨0, 0, 0, 0, 0⟩ ⟨⟨0, 0, 0, 0, 0⟩, "", ""⟩ with
  | .crash => .crash
  | .err e => .err e
  | .ok (totalResource, mig_instance) =>
    let st := cacheSum totalResource
    let si := cacheSum mig_instance.resourceCache
    if st = 0 then
      if active_power * si = 0 then .err "Error computing active power"
      else .ok none
    else .ok (some (active_power * si / st))

/-- A counter descriptor (field id, exported name, Prometheus type, help
text). -/
structure Counter where
  fieldID : Nat
  fieldName : String
  promType : String
  help : String
deriving DecidableEq

/-- The collector's local `min` on floats (`if a > b { return b }; return a`). -/
def goMin (a b : ℚ) : ℚ := if a > b then b else a

/-- Embeds `migDeviceResource`: for the power-draw counter (field 155) on a MIG
instance, splits the measured power into a clamped idle part scaled by
slice count and an active part attributed by weighted utilization, falling
back to the naive proportional share when the weighted computation errors.
Returns `none` on a Go panic (empty profile string); any parse failure on
the target's own inputs returns the raw value unchanged. -/
def migDeviceResource (v profile id : String) (gpu : Nat) (counter : Counter)
    (migResourceCache : Nat → Option (List MigResources)) : Option String :=
  if counter.fieldID ≠ 155 then some v
  else
    match profile.data.head? with
    | none => none
    | some ch =>
      match atoiChar ch with
      | none => some v
      | some s =>
        match parseFloat v with
        | none => some v
        | some value =>
          let scaled_idle_power := goMin 90 value * (s : ℚ) / 7
          let active_power := value - goMin 90 value
          match migResourceCache gpu with
          | none => some v
          | some cachedResource =>
            match processMigCacheForPower cachedResource id active_power with
            | .crash => none
            | .err _ =>
              some (formatF (active_power * (s : ℚ) / 7 + scaled_idle_power))
            | .ok none => some "+Inf"
            | .ok (some scaled_active_power) =>
              some (formatF (scaled_active_power + scaled_idle_power))

/-- The not-found message of `FindCounterField` (quotes around the id in
the Go format string are elided). -/
def findCounterErrMsg (fieldId : Nat) : String :=
  "could not find counter corresponding to field ID " ++ Nat.repr fieldId

/-- Embeds `FindCounterField`: linear scan for the first counter whose field id
matches.  The not-found branch evaluates `c[0]` while building its return
pair, so on an empty counter list the function panics (`none`) instead of
returning the error. -/
def FindCounterField (c : List Counter) (fieldId : Nat) :
    Option (Except String Counter) :=
  match c.find? (fun x => x.fieldID == fieldId) with
  | some ctr => some (.ok ctr)
  | none =>
    match c with
    | [] => none
    | _ :: _ => some (.error (findCounterErrMsg fieldId))

/-- Device identifier block (`dcgm.Device.Identifiers`); only the model
string is read by the collector. -/
structure DeviceIdentifiers where
  model : String
deriving DecidableEq

/-- A physical GPU (`dcgm.Device`): index, UUID and identifiers. -/
structure Device where
  gpu : Nat
  uuid : String
  identifiers : DeviceIdentifiers
deriving DecidableEq

/-- MIG entity metadata (`dcgm.MigEntityInfo`); only the NVML instance id
is read. -/
structure MigEntityInfo where
  nvmlInstanceId : Nat
deriving DecidableEq

/-- Instance metadata attached to a MIG partition (`GPUInstanceInfo`). -/
structure GPUInstanceInfo where
  info : MigEntityInfo
  profileName : String
deriving DecidableEq

/-- Entity address (`dcgm.GroupEntityPair`). -/
structure GroupEntityPair where
  entityGroupId : Nat
  entityId : Nat
deriving DecidableEq

/-- One monitored entity (`MonitoringInfo`).  `utilSamples` embeds the
result of the external `dcgm.EntityGetLatestValues` call that
`generateMigCache` issues for the five utilization fields; the sampling
collaborator is outside the core, so its reply is an input here. -/
structure MonitoringInfo where
  entity : GroupEntityPair
  deviceInfo : Device
  instanceInfo : Option GPUInstanceInfo
  parentId : Nat
  utilSamples : List FieldValue

/-- The per-sample body of the `generateMigCache` inner loop: skip-marker
and unparsable values leave the dimension at zero; field ids 1004-1008
select the tensor/dram/fp64/fp32/fp16 dimensions. -/
def buildMigResources (vals : List FieldValue) : MigResourceCache :=
  vals.foldl
    (fun acc val =>
      let v := ToString val
      if v = SkipDCGMValue then acc
      else
        match parseFloat v with
        | none => acc
        | some fv =>
          if val.fieldId = 1004 then { acc with tensor := fv }
          else if val.fieldId = 1005 then { acc with dram := fv }
          else if val.fieldId = 1006 then { acc with fp64 := fv }
          else if val.fieldId = 1007 then { acc with fp32 := fv }
          else if val.fieldId = 1008 then { acc with fp16 := fv }
          else acc)
    ⟨0, 0, 0, 0, 0⟩

/-- The cache entry `generateMigCache` builds for one monitored MIG
partition (utilization record, profile name, stringified instance id). -/
def migEntryOf (mi : MonitoringInfo) : MigResources :=
  match mi.instanceInfo with
  | some ii =>
    ⟨buildMigResources mi.utilSamples, ii.profileName,
     Nat.repr ii.info.nvmlInstanceId⟩
  | none => ⟨⟨0, 0, 0, 0, 0⟩, "", ""⟩

/-- Appends one entry to the list a Go map holds at key `k`, creating the
key if absent (the `migResourceCache[...] = append(v, migCache)` /
`[]MigResources{migCache}` branches). -/
def mapAppend (m : Nat → Option (List MigResources)) (k : Nat)
    (e : MigResources) : Nat → Option (List MigResources) :=
  fun g => if g = k then some ((m k).getD [] ++ [e]) else m g

/-- The `generateMigCache` loop over the monitored entities.  The source
returns a nil cache (`none`) the moment it reaches an entity without
instance metadata, discarding everything accumulated so far. -/
def generateMigCacheGo :
    List MonitoringInfo → (Nat → Option (List MigResources)) →
    Option (Nat → Option (List MigResources))
  | [], acc => some acc
  | mi :: rest, acc =>
    match mi.instanceInfo with
    | none => none
    | some _ => generateMigCacheGo rest (mapAppend acc mi.deviceInfo.gpu (migEntryOf mi))

/-- Embeds `generateMigCache`: builds the per-GPU cache of MIG utilization
entries for one collection cycle.  `none` models the Go function returning
a nil map. -/
def generateMigCache (monitoringInfo : List MonitoringInfo) :
    Option (Nat → Option (List MigResources)) :=
  generateMigCacheGo monitoringInfo (fun _ => none)

/-- Embeds `getGPUModel`: the model string, optionally with whitespace runs
collapsed and replaced by hyphens. -/
def getGPUModel (d : Device) (replaceBlanksInModelName : Bool) : String :=
  if replaceBlanksInModelName then
    String.replace
      (String.intercalate " "
        ((d.identifiers.model.split Char.isWhitespace).filter (fun w => w ≠ "")))
      " " "-"
  else d.identifiers.model

/-- One emitted metric record.  In Go every metric built in one builder
pass stores a reference to the single label map that the pass keeps
mutating, so at return each metric's label set is the final map of the
pass; `labels` is that shared final map. -/
structure Metric where
  counter : Counter
  value : String
  uuid : String
  gpu : String
  gpuUUID : String
  gpuDevice : String
  gpuModelName : String
  hostname : String
  labels : String → Option String
  attributes : List (String × String)
  migProfile : String
  gpuInstanceID : String

/-- Go map insertion (`labels[name] = v`) on the label-map model. -/
def insertLabel (m : String → Option String) (k v : String) :
    String → Option String :=
  fun q => if q = k then some v else m q

/-- State threaded through one builder pass: the shared label map and the
`(counter, value)` pairs of the metrics appended so far, in append order.
The entity-identifier fields of each metric are fixed per call and are
attached when the pass finishes; `none` is a propagated Go panic. -/
abbrev BuilderState := ((String → Option String) × List (Counter × String))

/-- The per-sample body of the `ToMetric` loop: skip-marker values are
dropped first, unresolved counters are skipped, label-typed counters go to
the shared label map, and for MIG entities the value is routed through
`migDeviceResource`. -/
def toMetricStep (c : List Counter) (d : Device)
    (instanceInfo : Option GPUInstanceInfo)
    (migCache : Nat → Option (List MigResources)) :
    Option BuilderState → FieldValue → Option BuilderState
  | none, _ => none
  | some (labels, ms), val =>
    let v := ToString val
    if v = SkipDCGMValue then some (labels, ms)
    else
      match FindCounterField c val.fieldId with
      | none => none
      | some (.error _) => some (labels, ms)
      | some (.ok counter) =>
        if counter.promType = "label" then
          some (insertLabel labels counter.fieldName v, ms)
        else
          match instanceInfo with
          | some ii =>
            match migDeviceResource v ii.profileName
                (Nat.repr ii.info.nvmlInstanceId) d.gpu counter migCache with
            | none => none
            | some v2 => some (labels, ms ++ [(counter, v2)])
          | none => some (labels, ms ++ [(counter, v)])

/-- Embeds `ToMetric`: the GPU / MIG-instance builder.  Returns the appended
metrics in sampling order (the Go code groups them by counter in the
output map; the flat append order determines that grouping), each carrying
the pass's final shared label map. -/
def ToMetric (values : List FieldValue) (c : List Counter) (d : Device)
    (instanceInfo : Option GPUInstanceInfo) (useOld : Bool) (hostname : String)
    (replaceBlanksInModelName : Bool)
    (migCache : Nat → Option (List MigResources)) : Option (List Metric) :=
  (values.foldl (toMetricStep c d instanceInfo migCache)
      (some (fun _ => none, []))).map fun st =>
    st.2.map fun cv =>
      { counter := cv.1, value := cv.2,
        uuid := if useOld then "uuid" else "UUID",
        gpu := Nat.repr d.gpu, gpuUUID := d.uuid,
        gpuDevice := "nvidia" ++ Nat.repr d.gpu,
        gpuModelName := getGPUModel d replaceBlanksInModelName,
        hostname := hostname, labels := st.1, attributes := [],
        migProfile := (instanceInfo.map (fun ii => ii.profileName)).getD "",
        gpuInstanceID :=
          (instanceInfo.map (fun ii => Nat.repr ii.info.nvmlInstanceId)).getD "" }

/-- The per-sample body of the `ToSwitchMetric` loop.  Unlike `ToMetric`,
the counter is resolved and label-typed samples are folded into the label
map before the skip-marker test, so a skip-valued label sample still lands
in the label map. -/
def toSwitchMetricStep (c : List Counter) :
    Option BuilderState → FieldValue → Option BuilderState
  | none, _ => none
  | some (labels, ms), val =>
    let v := ToString val
    match FindCounterField c val.fieldId with
    | none => none
    | some (.error _) => some (labels, ms)
    | some (.ok counter) =>
      if counter.promType = "label" then
        some (insertLabel labels counter.fieldName v, ms)
      else if v = SkipDCGMValue then some (labels, ms)
      else some (labels, ms ++ [(counter, v)])

/-- Embeds `ToSwitchMetric`: the switch / link builder. -/
def ToSwitchMetric (values : List FieldValue) (c : List Counter)
    (mi : MonitoringInfo) (useOld : Bool) (hostname : String) :
    Option (List Metric) :=
  (values.foldl (toSwitchMetricStep c) (some (fun _ => none, []))).map fun st =>
    st.2.map fun cv =>
      { counter := cv.1, value := cv.2,
        uuid := if useOld then "uuid" else "UUID",
        gpu := Nat.repr mi.entity.entityId, gpuUUID := "",
        gpuDevice := "nvswitch" ++ Nat.repr mi.parentId,
        gpuModelName := "", hostname := hostname, labels := st.1,
        attributes := [], migProfile := "", gpuInstanceID := "" }

/-- The per-sample body of the `ToCPUMetric` loop is identical to the
switch builder's loop body in the source; only the fixed identifier fields
of the built metric differ. -/
def toCPUMetricStep (c : List Counter) :
    Option BuilderState → FieldValue → Option BuilderState :=
  toSwitchMetricStep c

/-- Embeds `ToCPUMetric`: the CPU / CPU-core builder. -/
def ToCPUMetric (values : List FieldValue) (c : List Counter)
    (mi : MonitoringInfo) (useOld : Bool) (hostname : String) :
    Option (List Metric) :=
  (values.foldl (toCPUMetricStep c) (some (fun _ => none, []))).map fun st =>
    st.2.map fun cv =>
      { counter := cv.1, value := cv.2,
        uuid := if useOld then "uuid" else "UUID",
        gpu := Nat.repr mi.entity.entityId, gpuUUID := "",
        gpuDevice := Nat.repr mi.parentId,
        gpuModelName := "", hostname := hostname, labels := st.1,
        attributes := [], migProfile := "", gpuInstanceID := "" }

/-- Sample list for the C5 witness: one ordinary power sample. -/
def c5Vals : List FieldValue := [⟨155, DCGM_FT_INT64, 42, 0, ""⟩]

/-- Counter list for the C5 witness. -/
def c5Counters : List Counter := [⟨155, "DCGM_FI_DEV_POWER_USAGE", "gauge", ""⟩]

/-- Output of the C5 witness builder pass. -/
def c5Out : List Metric :=
  (ToMetric c5Vals c5Counters ⟨0, "GPU-0", ⟨"A100"⟩⟩ none false "host" false
    (fun _ => none)).getD []

/-- The power-draw counter used by the C1 concrete instances. -/
def c1PowerCounter : Counter := ⟨155, "DCGM_FI_DEV_POWER_USAGE", "gauge", ""⟩

/-- A single 3-slice cache entry with tensor utilization one half. -/
def c1Entry : MigResources := ⟨⟨1/2, 0, 0, 0, 0⟩, "3g.20gb", "0"⟩

/-- A cache holding only `c1Entry` under GPU zero. -/
def c1Cache : Nat → Option (List MigResources) :=
  fun g => if g = 0 then some [c1Entry] else none

/-- The all-zero 3-slice cache entry used by the C3 witness. -/
def c3Entry : MigResources := ⟨⟨0, 0, 0, 0, 0⟩, "3g.20gb", "0"⟩

/-- Slice count parsed from a cache entry's profile the way the
attribution loop parses it (first character through `strconv.Atoi`). -/
def sliceOf (e : MigResources) : Option Nat :=
  e.profile.data.head?.bind atoiChar

/-- The weighted five-dimension record the loop computes for one entry. -/
def wEntryOf (e : MigResources) : MigResourceCache :=
  weightedEntry (((sliceOf e).getD 0 : Nat) : ℚ) e.resourceCache

/-- The weighted utilization mass of one entry. -/
def wsum (e : MigResources) : ℚ := cacheSum (wEntryOf e)

/-- A cache entry with its utilization replaced by the weighted record,
as the loop stores it into `mig_instance`. -/
def wMigOf (e : MigResources) : MigResources :=
  { e with resourceCache := wEntryOf e }

/-- Extracts a finite successful attribution result, defaulting to zero. -/
def GoRes.okFinD : GoRes (Option ℚ) → ℚ
  | .ok (some r) => r
  | _ => 0

/-- First cache entry of the C2 witness scenario (3 slices, tensor one
half). -/
def c2e1 : MigResources := ⟨⟨1/2, 0, 0, 0, 0⟩, "3g.20gb", "0"⟩

/-- Second cache entry of the C2 witness scenario (4 slices, tensor one
tenth). -/
def c2e2 : MigResources := ⟨⟨1/10, 0, 0, 0, 0⟩, "4g.20gb", "1"⟩

/-- The two-instance GPU cache of the C2 witness. -/
def c2m : List MigResources := [c2e1, c2e2]

/-- Appending entries to an optional per-GPU list, distinguishing an
absent key from a present one. -/
def optAppend (o : Option (List MigResources)) (es : List MigResources) :
    Option (List MigResources) :=
  match o, es with
  | none, [] => none
  | none, es => some es
  | some v, es => some (v ++ es)

/-- A MIG partition of GPU zero, with no utilization samples. -/
def c4MigEntity : MonitoringInfo :=
  ⟨⟨0, 0⟩, ⟨0, "GPU-0", ⟨"A100"⟩⟩, some ⟨⟨3⟩, "3g.20gb"⟩, 0, []⟩

/-- A plain GPU entity (no instance metadata) on the same GPU. -/
def c4PlainGPU : MonitoringInfo :=
  ⟨⟨1, 0⟩, ⟨0, "GPU-0", ⟨"A100"⟩⟩, none, 0, []⟩

/-- The label pair a sample contributes in a GPU builder pass: the skip
test comes first, then resolution, then the label classification. -/
def migLabelPair (c : List Counter) (val : FieldValue) : Option (String × String) :=
  let v := ToString val
  if v = SkipDCGMValue then none
  else
    match FindCounterField c val.fieldId with
    | some (.ok counter) =>
      if counter.promType = "label" then some (counter.fieldName, v) else none
    | _ => none

/-- All label pairs of a GPU builder pass, in sampling order. -/
def migLabelPairs (c : List Counter) (values : List FieldValue) :
    List (String × String) :=
  values.filterMap (migLabelPair c)

/-- The label pair a sample contributes in a switch or CPU builder pass:
label classification precedes the skip test there, so a skip-valued label
sample still contributes. -/
def switchLabelPair (c : List Counter) (val : FieldValue) :
    Option (String × String) :=
  let v := ToString val
  match FindCounterField c val.fieldId with
  | some (.ok counter) =>
    if counter.promType = "label" then some (counter.fieldName, v) else none
  | _ => none

/-- All label pairs of a switch or CPU builder pass, in sampling order. -/
def switchLabelPairs (c : List Counter) (values : List FieldValue) :
    List (String × String) :=
  values.filterMap (switchLabelPair c)

/-- A placeholder metric for total head extraction. -/
def dummyMetric : Metric :=
  ⟨⟨0, "", "", ""⟩, "", "", "", "", "", "", "", fun _ => none, [], "", ""⟩

/-- Counter list of the C7 witness: one label counter, one gauge. -/
def c7Counters : List Counter :=
  [⟨50, "DCGM_FI_DEV_NAME", "label", ""⟩, ⟨60, "DCGM_FI_DEV_GPU_TEMP", "gauge", ""⟩]

/-- Samples of the C7 witness: the gauge sample comes before the label
sample, so the shared map must still supply the label to it. -/
def c7Vals : List FieldValue :=
  [⟨60, DCGM_FT_INT64, 30, 0, ""⟩, ⟨50, DCGM_FT_STRING, 0, 0, "A100"⟩]

/-- Output of the C7 witness pass. -/
def c7Out : List Metric :=
  (ToMetric c7Vals c7Counters ⟨0, "U", ⟨"A100"⟩⟩ none false "host" false
    (fun _ => none)).getD []

/-- The single metric of the C7 witness pass. -/
def c7M : Metric := c7Out.headD dummyMetric

/-- The appended `(counter, value)` pairs of a switch or CPU builder pass,
which ignore the label-map component of the state. -/
def switchMsStep (c : List Counter) :
    Option (List (Counter × String)) → FieldValue →
    Option (List (Counter × String))
  | none, _ => none
  | some ms, val =>
    let v := ToString val
    match FindCounterField c val.fieldId with
    | none => none
    | some (.error _) => some ms
    | some (.ok counter) =>
      if counter.promType = "label" then some ms
      else if v = SkipDCGMValue then some ms
      else some (ms ++ [(counter, v)])

/-- The monitored switch entity of the C8 instances. -/
def c8mi : MonitoringInfo := ⟨⟨7, 3⟩, ⟨0, "", ⟨""⟩⟩, none, 1, []⟩

/-- The label counter of the C8 instances. -/
def c8LabelCtr : Counter := ⟨50, "DCGM_FI_DEV_NAME", "label", ""⟩

/-- The gauge counter of the C8 instances. -/
def c8GaugeCtr : Counter := ⟨60, "DCGM_FI_DEV_GPU_TEMP", "gauge", ""⟩

/-- A sample whose normalized value is the skip marker, resolving to the
label counter. -/
def c8SkipVal : FieldValue := ⟨50, DCGM_FT_INT64, DCGM_FT_INT32_BLANK, 0, ""⟩

/-- An ordinary gauge sample. -/
def c8TempVal : FieldValue := ⟨60, DCGM_FT_INT64, 30, 0, ""⟩

/-- Output of the C8 counterexample switch pass. -/
def c8Out : List Metric :=
  (ToSwitchMetric [c8SkipVal, c8TempVal] [c8LabelCtr, c8GaugeCtr] c8mi false
    "host").getD []

/-- Folding the GPU builder step from a propagated panic stays a panic. -/
lemma foldl_toMetricStep_none (c : List Counter) (d : Device)
    (ii : Option GPUInstanceInfo) (cache : Nat → Option (List MigResources)) :
    ∀ vals : List FieldValue,
      vals.foldl (toMetricStep c d ii cache) none = none := by
  intro vals
  induction vals with
  | nil => rfl
  | cons v rest ih => simpa [toMetricStep] using ih

/-- Every `(counter, value)` pair appended by a pass of the GPU builder
over a non-MIG entity carries the normalized value of one of the input
samples, and that value is not the skip marker. -/
lemma toMetricStep_ms_src (c : List Counter) (d : Device)
    (cache : Nat → Option (List MigResources)) :
    ∀ (vals : List FieldValue) (l0 : String → Option String)
      (ms0 : List (Counter × String)) (l : String → Option String)
      (ms : List (Counter × String)),
      vals.foldl (toMetricStep c d none cache) (some (l0, ms0)) = some (l, ms) →
      ∀ p ∈ ms, p ∈ ms0 ∨
        ∃ val ∈ vals, ToString val ≠ SkipDCGMValue ∧ p.2 = ToString val := by
  intro vals
  induction vals with
  | nil =>
    intro l0 ms0 l ms h p hp
    simp only [List.foldl_nil, Option.some.injEq, Prod.mk.injEq] at h
    exact Or.inl (h.2 ▸ hp)
  | cons val rest ih =>
    intro l0 ms0 l ms h p hp
    rw [List.foldl_cons] at h
    by_cases hskip : ToString val = SkipDCGMValue
    · rw [show toMetricStep c d none cache (some (l0, ms0)) val = some (l0, ms0) by
        simp [toMetricStep, hskip]] at h
      rcases ih l0 ms0 l ms h p hp with h1 | ⟨w, hw, hne, hv⟩
      · exact Or.inl h1
      · exact Or.inr ⟨w, List.mem_cons_of_mem _ hw, hne, hv⟩
    · cases hf : FindCounterField c val.fieldId with
      | none =>
        rw [show toMetricStep c d none cache (some (l0, ms0)) val = none by
          simp [toMetricStep, hskip, hf]] at h
        rw [foldl_toMetricStep_none] at h
        exact absurd h (by simp)
      | some r =>
        cases r with
        | error e =>
          rw [show toMetricStep c d none cache (some (l0, ms0)) val = some (l0, ms0) by
            simp [toMetricStep, hskip, hf]] at h
          rcases ih l0 ms0 l ms h p hp with h1 | ⟨w, hw, hne, hv⟩
          · exact Or.inl h1
          · exact Or.inr ⟨w, List.mem_cons_of_mem _ hw, hne, hv⟩
        | ok ctr =>
          by_cases hlab : ctr.promType = "label"
          · rw [show toMetricStep c d none cache (some (l0, ms0)) val =
                some (insertLabel l0 ctr.fieldName (ToString val), ms0) by
              simp [toMetricStep, hskip, hf, hlab]] at h
            rcases ih _ ms0 l ms h p hp with h1 | ⟨w, hw, hne, hv⟩
            · exact Or.inl h1
            · exact Or.inr ⟨w, List.mem_cons_of_mem _ hw, hne, hv⟩
          · rw [show toMetricStep c d none cache (some (l0, ms0)) val =
                some (l0, ms0 ++ [(ctr, ToString val)]) by
              simp [toMetricStep, hskip, hf, hlab]] at h
            rcases ih _ _ l ms h p hp with h1 | ⟨w, hw, hne, hv⟩
            · rcases List.mem_append.mp h1 with h2 | h2
              · exact Or.inl h2
              · refine Or.inr ⟨val, List.mem_cons_self _ _, hskip, ?_⟩
                rw [List.mem_singleton.mp h2]
            · exact Or.inr ⟨w, List.mem_cons_of_mem _ hw, hne, hv⟩

/-- C9: the value normalizer maps every recognized sentinel payload to the
skip marker, every other int64 sample to its decimal string, every other
double to the fixed-precision decimal string, every other string sample
through unchanged, and every sample of an unrecognized field type to the
conversion-failure marker, which differs from the skip marker. -/
theorem C9_value_normalizer :
    (∀ fv : FieldValue, fv.fieldType = DCGM_FT_INT64 →
       fv.int64 ∈ int64Sentinels → ToString fv = SkipDCGMValue) ∧
    (∀ fv : FieldValue, fv.fieldType = DCGM_FT_INT64 →
       fv.int64 ∉ int64Sentinels → ToString fv = Int.repr fv.int64) ∧
    (∀ fv : FieldValue, fv.fieldType = DCGM_FT_DOUBLE →
       fv.float64 ∈ fp64Sentinels → ToString fv = SkipDCGMValue) ∧
    (∀ fv : FieldValue, fv.fieldType = DCGM_FT_DOUBLE →
       fv.float64 ∉ fp64Sentinels → ToString fv = formatF fv.float64) ∧
    (∀ fv : FieldValue, fv.fieldType = DCGM_FT_STRING →
       fv.strVal ∈ strSentinels → ToString fv = SkipDCGMValue) ∧
    (∀ fv : FieldValue, fv.fieldType = DCGM_FT_STRING →
       fv.strVal ∉ strSentinels → ToString fv = fv.strVal) ∧
    (∀ fv : FieldValue, fv.fieldType ≠ DCGM_FT_INT64 →
       fv.fieldType ≠ DCGM_FT_DOUBLE → fv.fieldType ≠ DCGM_FT_STRING →
       ToString fv = FailedToConvert) ∧
    FailedToConvert ≠ SkipDCGMValue := by
  refine ⟨?_, ?_, ?_, ?_, ?_, ?_, ?_, ?_⟩
  · intro fv h1 h2; simp [ToString, h1, h2]
  · intro fv h1 h2; simp [ToString, h1, h2]
  · intro fv h1 h2
    simp [ToString, h1, h2, DCGM_FT_DOUBLE, DCGM_FT_INT64]
  · intro fv h1 h2
    simp [ToString, h1, h2, DCGM_FT_DOUBLE, DCGM_FT_INT64]
  · intro fv h1 h2
    simp [ToString, h1, h2, DCGM_FT_STRING, DCGM_FT_DOUBLE, DCGM_FT_INT64]
  · intro fv h1 h2
    simp [ToString, h1, h2, DCGM_FT_STRING, DCGM_FT_DOUBLE, DCGM_FT_INT64]
  · intro fv h1 h2 h3; simp [ToString, h1, h2, h3]
  · decide

/-- C9 witness: concrete sentinel, ordinary, and unrecognized samples. -/
theorem C9_witness :
    ToString ⟨155, DCGM_FT_INT64, DCGM_FT_INT32_BLANK, 0, ""⟩ = SkipDCGMValue ∧
    ToString ⟨155, DCGM_FT_INT64, 42, 0, ""⟩ = Int.repr 42 ∧
    ToString ⟨155, 98, 0, 0, "x"⟩ = FailedToConvert ∧
    FailedToConvert ≠ SkipDCGMValue :=
  ⟨C9_value_normalizer.1 _ rfl (by decide),
   C9_value_normalizer.2.1 _ rfl (by decide),
   C9_value_normalizer.2.2.2.2.2.2.1 _ (by decide) (by decide) (by decide),
   C9_value_normalizer.2.2.2.2.2.2.2⟩

/-- C10: on a non-empty counter list `FindCounterField` returns the first
matching counter, or an error naming the queried field id; on the empty
list the not-found branch indexes element zero of the empty slice and the
function panics instead of returning the error. -/
theorem C10_find_counter_field :
    (∀ (c : List Counter) (fieldId : Nat) (ctr : Counter),
       c.find? (fun x => x.fieldID == fieldId) = some ctr →
       FindCounterField c fieldId = some (.ok ctr)) ∧
    (∀ (c : List Counter) (fieldId : Nat), c ≠ [] →
       c.find? (fun x => x.fieldID == fieldId) = none →
       FindCounterField c fieldId = some (.error (findCounterErrMsg fieldId))) ∧
    (∀ fieldId : Nat, FindCounterField [] fieldId = none) := by
  refine ⟨?_, ?_, ?_⟩
  · intro c fieldId ctr h; simp [FindCounterField, h]
  · intro c fieldId hne h
    cases c with
    | nil => exact absurd rfl hne
    | cons c0 rest => simp [FindCounterField, h]
  · intro fieldId; rfl

/-- C10 witness: a hit, a miss on a non-empty list, and the empty-list
panic. -/
theorem C10_witness :
    FindCounterField [⟨155, "DCGM_FI_DEV_POWER_USAGE", "gauge", ""⟩] 155 =
      some (.ok ⟨155, "DCGM_FI_DEV_POWER_USAGE", "gauge", ""⟩) ∧
    FindCounterField [⟨155, "DCGM_FI_DEV_POWER_USAGE", "gauge", ""⟩] 7 =
      some (.error (findCounterErrMsg 7)) ∧
    FindCounterField [] 7 = none :=
  ⟨C10_find_counter_field.1 _ 155 _ (by decide),
   C10_find_counter_field.2.1 _ 7 (by decide) (by decide),
   C10_find_counter_field.2.2 7⟩

/-- C6: for a power sample on a MIG instance with a non-empty profile,
failure to parse the profile's first character as an integer, or the raw
value as a float, makes `migDeviceResource` return the original value
string unchanged. -/
theorem C6_target_parse_failure (v profile id : String) (gpu : Nat)
    (counter : Counter) (cache : Nat → Option (List MigResources)) (ch : Char)
    (hc : counter.fieldID = 155)
    (hhead : profile.data.head? = some ch)
    (hfail : atoiChar ch = none ∨ parseFloat v = none) :
    migDeviceResource v profile id gpu counter cache = some v := by
  rcases hfail with h | h
  · simp [migDeviceResource, hc, hhead, h]
  · cases ha : atoiChar ch with
    | none => simp [migDeviceResource, hc, hhead, ha]
    | some s => simp [migDeviceResource, hc, hhead, ha, h]

/-- C6 witness: a non-digit profile head and an unparsable value string. -/
theorem C6_witness :
    atoiChar 'x' = none ∧
    migDeviceResource "100" "xg.20gb" "0" 0 ⟨155, "p", "gauge", ""⟩
      (fun _ => none) = some "100" ∧
    parseFloat "oops" = none ∧
    migDeviceResource "oops" "3g.20gb" "0" 0 ⟨155, "p", "gauge", ""⟩
      (fun _ => none) = some "oops" :=
  ⟨by decide,
   C6_target_parse_failure _ _ _ _ _ _ 'x' rfl rfl (Or.inl (by decide)),
   by decide,
   C6_target_parse_failure _ _ _ _ _ _ '3' rfl rfl (Or.inr (by decide))⟩

/-- C5: the attribution engine only ever changes power values on MIG
entities: a pass of the GPU builder over an entity without instance
metadata emits every value metric with the normalized raw sample value
unchanged, and `migDeviceResource` returns its input unchanged for every
counter whose field id is not 155. -/
theorem C5_power_counter_only :
    (∀ (values : List FieldValue) (c : List Counter) (d : Device)
       (useOld : Bool) (hostname : String) (rb : Bool)
       (cache : Nat → Option (List MigResources)) (out : List Metric),
       ToMetric values c d none useOld hostname rb cache = some out →
       ∀ m ∈ out, ∃ val ∈ values,
         ToString val ≠ SkipDCGMValue ∧ m.value = ToString val) ∧
    (∀ (v profile id : String) (gpu : Nat) (counter : Counter)
       (cache : Nat → Option (List MigResources)), counter.fieldID ≠ 155 →
       migDeviceResource v profile id gpu counter cache = some v) := by
  constructor
  · intro values c d useOld hostname rb cache out hout m hm
    rw [ToMetric, Option.map_eq_some'] at hout
    obtain ⟨st, hst, hout⟩ := hout
    subst hout
    obtain ⟨cv, hcv, hmcv⟩ := List.mem_map.mp hm
    rcases toMetricStep_ms_src c d cache values (fun _ => none) [] st.1 st.2 hst cv hcv with
      h1 | ⟨w, hw, hne, hv⟩
    · exact absurd h1 (List.not_mem_nil cv)
    · exact ⟨w, hw, hne, by rw [← hmcv, hv]⟩
  · intro v profile id gpu counter cache h
    simp [migDeviceResource, h]

/-- C5 witness: a concrete non-MIG pass whose emitted value is the
normalized sample, and a concrete non-power counter passed through the
attribution engine unchanged. -/
theorem C5_witness :
    ToMetric c5Vals c5Counters ⟨0, "GPU-0", ⟨"A100"⟩⟩ none false "host" false
      (fun _ => none) = some c5Out ∧
    (∀ m ∈ c5Out, ∃ val ∈ c5Vals,
       ToString val ≠ SkipDCGMValue ∧ m.value = ToString val) ∧
    migDeviceResource "7" "3g.20gb" "0" 0 ⟨100, "DCGM_FI_DEV_SM_CLOCK", "gauge", ""⟩
      (fun _ => none) = some "7" :=
  ⟨rfl,
   C5_power_counter_only.1 c5Vals c5Counters ⟨0, "GPU-0", ⟨"A100"⟩⟩ false "host"
     false (fun _ => none) c5Out rfl,
   C5_power_counter_only.2 "7" "3g.20gb" "0" 0 _ (fun _ => none) (by decide)⟩

/-- Adding a record of zeros on the left of the componentwise sum is the
identity. -/
lemma addCache_zero_left (w : MigResourceCache) :
    addCache ⟨0, 0, 0, 0, 0⟩ w = w := by
  cases w; simp [addCache]

/-- Adding a record of zeros on the right of the componentwise sum is the
identity. -/
lemma addCache_zero_right (t : MigResourceCache) :
    addCache t ⟨0, 0, 0, 0, 0⟩ = t := by
  cases t; simp [addCache]

/-- Weighting an all-zero utilization record yields zeros. -/
lemma weightedEntry_zero (sf : ℚ) :
    weightedEntry sf ⟨0, 0, 0, 0, 0⟩ = ⟨0, 0, 0, 0, 0⟩ := by
  simp [weightedEntry]

/-- The five-dimension sum of the zero record. -/
lemma cacheSum_zero : cacheSum ⟨0, 0, 0, 0, 0⟩ = 0 := by
  simp [cacheSum]

/-- Evaluation of the attribution engine on a single-entry cache holding
the target instance itself: the loop weights the one entry, which is both
the total and the instance share, so the weighted active share is either
the whole active power, or (in the all-zero NaN fallback) the naive
proportional share. -/
lemma migDeviceResource_single_entry (v profile id : String) (gpu : Nat)
    (counter : Counter) (cache : Nat → Option (List MigResources))
    (e : MigResources) (ch : Char) (S : Nat) (P : ℚ)
    (hc : counter.fieldID = 155)
    (hhead : profile.data.head? = some ch) (hS : atoiChar ch = some S)
    (hv : parseFloat v = some P)
    (hcache : cache gpu = some [e])
    (hid : e.id = id) (hprof : e.profile = profile) :
    migDeviceResource v profile id gpu counter cache =
      some (formatF
        ((if cacheSum (weightedEntry (S : ℚ) e.resourceCache) = 0
          then (P - goMin 90 P) * (S : ℚ) / 7
          else P - goMin 90 P) + goMin 90 P * (S : ℚ) / 7)) := by
  have hloop : migLoop id [e] ⟨0, 0, 0, 0, 0⟩ ⟨⟨0, 0, 0, 0, 0⟩, "", ""⟩ =
      .ok (weightedEntry (S : ℚ) e.resourceCache,
           { e with resourceCache := weightedEntry (S : ℚ) e.resourceCache }) := by
    simp only [migLoop, hprof, hhead, hS, hid, if_true, addCache_zero_left]
  have hproc : processMigCacheForPower [e] id (P - goMin 90 P) =
      (if cacheSum (weightedEntry (S : ℚ) e.resourceCache) = 0
       then .err "Error computing active power"
       else .ok (some (P - goMin 90 P))) := by
    rw [processMigCacheForPower, hloop]
    by_cases h0 : cacheSum (weightedEntry (S : ℚ) e.resourceCache) = 0
    · simp [h0]
    · have hdiv : (P - goMin 90 P) * cacheSum (weightedEntry (S : ℚ) e.resourceCache) /
          cacheSum (weightedEntry (S : ℚ) e.resourceCache) = P - goMin 90 P := by
        rw [mul_div_assoc, div_self h0, mul_one]
      simp [h0, hdiv]
  by_cases h0 : cacheSum (weightedEntry (S : ℚ) e.resourceCache) = 0
  · simp [migDeviceResource, hc, hhead, hS, hv, hcache, hproc, h0]
  · simp [migDeviceResource, hc, hhead, hS, hv, hcache, hproc, h0]

/-- Concrete parse of the decimal string used by the C1 and C3 instances. -/
lemma parseFloat_200 : parseFloat "200" = some 200 := by
  rw [show parseFloat "200" =
        some ((1 : ℚ) * ((digitsVal ['2', '0', '0'] : Nat) : ℚ)) from rfl,
      show (digitsVal ['2', '0', '0'] : Nat) = 200 from rfl]
  norm_num

/-- The clamped idle baseline at measured power 200. -/
lemma goMin_90_200 : goMin 90 (200 : ℚ) = 90 := by
  rw [goMin, if_neg (by norm_num)]

/-- The fraction 1040/7 in reduced constructor form, so that the
fixed-precision formatter can be evaluated on it. -/
lemma ratLit_1040_7 :
    (1040 / 7 : ℚ) = Rat.mk' 1040 7 (by norm_num) (by norm_num) := by
  rw [Rat.mk'_eq_divInt, Rat.divInt_eq_div]; norm_num

/-- The fraction 600/7 in reduced constructor form. -/
lemma ratLit_600_7 :
    (600 / 7 : ℚ) = Rat.mk' 600 7 (by norm_num) (by norm_num) := by
  rw [Rat.mk'_eq_divInt, Rat.divInt_eq_div]; norm_num

/-- Fixed-precision rendering of 1040/7. -/
lemma formatF_1040_7 : formatF (1040 / 7 : ℚ) = "148.571429" := by
  rw [ratLit_1040_7]; rfl

/-- Fixed-precision rendering of 600/7. -/
lemma formatF_600_7 : formatF (600 / 7 : ℚ) = "85.714286" := by
  rw [ratLit_600_7]; rfl

/-- The weighted utilization mass of the single C1 entry is nonzero. -/
lemma c1Entry_wsum_ne :
    cacheSum (weightedEntry ((3 : Nat) : ℚ) c1Entry.resourceCache) ≠ 0 := by
  rw [show c1Entry.resourceCache = (⟨1/2, 0, 0, 0, 0⟩ : MigResourceCache) from rfl]
  norm_num [cacheSum, weightedEntry, featureWeights]

/-- C1 (amended): with a single cache entry, namely the target instance
itself, the weighted formula attributes the whole active power to that
instance when its weighted utilization sum is nonzero, so the result is
`idle_share + active`; only in the all-zero fallback case does it equal
the naive `idle_share + active × S / 7`. -/
theorem C1_single_entry (v profile id : String) (gpu : Nat) (counter : Counter)
    (cache : Nat → Option (List MigResources)) (e : MigResources) (ch : Char)
    (S : Nat) (P : ℚ)
    (hc : counter.fieldID = 155)
    (hhead : profile.data.head? = some ch) (hS : atoiChar ch = some S)
    (hv : parseFloat v = some P)
    (hcache : cache gpu = some [e])
    (hid : e.id = id) (hprof : e.profile = profile) :
    migDeviceResource v profile id gpu counter cache =
      some (formatF
        ((if cacheSum (weightedEntry (S : ℚ) e.resourceCache) = 0
          then (P - goMin 90 P) * (S : ℚ) / 7
          else P - goMin 90 P) + goMin 90 P * (S : ℚ) / 7)) :=
  migDeviceResource_single_entry v profile id gpu counter cache e ch S P
    hc hhead hS hv hcache hid hprof

/-- C1 counterexample: for measured power 200 on the sole 3-slice instance
with nonzero utilization, the code returns `idle_share + active`
(148.571429), not the naive `idle_share + active × 3 / 7` (85.714286)
asserted by the claim, so the weighted formula does not degenerate to the
naive one on a single-entry cache. -/
theorem C1_counterexample :
    migDeviceResource "200" "3g.20gb" "0" 0 c1PowerCounter c1Cache ≠
      some (formatF (goMin 90 200 * ((3 : Nat) : ℚ) / 7 +
        (200 - goMin 90 200) * ((3 : Nat) : ℚ) / 7)) := by
  have hA := migDeviceResource_single_entry "200" "3g.20gb" "0" 0 c1PowerCounter
    c1Cache c1Entry '3' 3 200 rfl rfl rfl parseFloat_200 rfl rfl rfl
  rw [if_neg c1Entry_wsum_ne, goMin_90_200] at hA
  rw [goMin_90_200]
  have e1 : (200 : ℚ) - 90 + 90 * ((3 : Nat) : ℚ) / 7 = 1040 / 7 := by
    push_cast; norm_num
  have e2 : (90 : ℚ) * ((3 : Nat) : ℚ) / 7 + (200 - 90) * ((3 : Nat) : ℚ) / 7 =
      600 / 7 := by
    push_cast; norm_num
  rw [e1, formatF_1040_7] at hA
  rw [e2, formatF_600_7, hA]
  decide

/-- C1 witness: the amended statement at the concrete single-entry cache
with nonzero utilization. -/
theorem C1_witness :
    c1Cache 0 = some [c1Entry] ∧
    migDeviceResource "200" "3g.20gb" "0" 0 c1PowerCounter c1Cache =
      some (formatF
        ((if cacheSum (weightedEntry ((3 : Nat) : ℚ) c1Entry.resourceCache) = 0
          then (200 - goMin 90 200) * ((3 : Nat) : ℚ) / 7
          else 200 - goMin 90 200) + goMin 90 200 * ((3 : Nat) : ℚ) / 7)) :=
  ⟨rfl,
   C1_single_entry "200" "3g.20gb" "0" 0 c1PowerCounter c1Cache c1Entry '3' 3 200
     rfl rfl rfl parseFloat_200 rfl rfl rfl⟩

/-- A non-empty string has a first character. -/
lemma head?_of_ne_empty (s : String) (h : s ≠ "") :
    ∃ ch, s.data.head? = some ch := by
  cases s with
  | mk l =>
    cases l with
    | nil => exact absurd rfl h
    | cons a t => exact ⟨a, rfl⟩

/-- On a cache whose entries all carry zero utilization (and non-empty
profiles, so no panic), the attribution loop either errors on a non-digit
profile or completes with the totals untouched and a zero instance
record. -/
lemma migLoop_all_zero (id : String) :
    ∀ (m : List MigResources) (t : MigResourceCache) (i : MigResources),
      (∀ e ∈ m, e.resourceCache = ⟨0, 0, 0, 0, 0⟩) →
      (∀ e ∈ m, e.profile ≠ "") →
      i.resourceCache = ⟨0, 0, 0, 0, 0⟩ →
      (∃ msg, migLoop id m t i = .err msg) ∨
      (∃ i2, migLoop id m t i = .ok (t, i2) ∧
        i2.resourceCache = ⟨0, 0, 0, 0, 0⟩) := by
  intro m
  induction m with
  | nil => intro t i _ _ hi; exact Or.inr ⟨i, rfl, hi⟩
  | cons e rest ih =>
    intro t i hzero hne hi
    obtain ⟨ch, hch⟩ := head?_of_ne_empty e.profile (hne e (List.mem_cons_self _ _))
    cases ha : atoiChar ch with
    | none =>
      refine Or.inl ⟨"No profile scaling factor found", ?_⟩
      simp only [migLoop, hch, ha]
    | some s =>
      have hw : weightedEntry (s : ℚ) e.resourceCache = ⟨0, 0, 0, 0, 0⟩ := by
        rw [hzero e (List.mem_cons_self _ _), weightedEntry_zero]
      have hstep : migLoop id (e :: rest) t i =
          migLoop id rest t
            (if e.id = id then { e with resourceCache := ⟨0, 0, 0, 0, 0⟩ } else i) := by
        simp only [migLoop, hch, ha, hw, addCache_zero_right]
      rw [hstep]
      refine ih t _ (fun x hx => hzero x (List.mem_cons_of_mem _ hx))
        (fun x hx => hne x (List.mem_cons_of_mem _ hx)) ?_
      by_cases hidm : e.id = id
      · simp [hidm]
      · simp [hidm, hi]

/-- C3: when every cached entry of the GPU carries zero utilization in all
five dimensions (and, per the data-model invariant, non-empty profiles),
the weighted formula's 0/0 is caught by the NaN check — or a sibling's
parse error is caught earlier — and `migDeviceResource` returns the naive
proportional share instead of failing. -/
theorem C3_zero_utilization_fallback (v profile id : String) (gpu : Nat)
    (counter : Counter) (cache : Nat → Option (List MigResources))
    (m : List MigResources) (ch : Char) (S : Nat) (P : ℚ)
    (hc : counter.fieldID = 155)
    (hhead : profile.data.head? = some ch) (hS : atoiChar ch = some S)
    (hv : parseFloat v = some P)
    (hm : cache gpu = some m)
    (hzero : ∀ e ∈ m, e.resourceCache = ⟨0, 0, 0, 0, 0⟩)
    (hne : ∀ e ∈ m, e.profile ≠ "") :
    migDeviceResource v profile id gpu counter cache =
      some (formatF ((P - goMin 90 P) * (S : ℚ) / 7 + goMin 90 P * (S : ℚ) / 7)) := by
  have hproc : ∃ msg, processMigCacheForPower m id (P - goMin 90 P) = .err msg := by
    rcases migLoop_all_zero id m ⟨0, 0, 0, 0, 0⟩ ⟨⟨0, 0, 0, 0, 0⟩, "", ""⟩ hzero hne rfl
      with ⟨msg, hl⟩ | ⟨i2, hl, hi2⟩
    · exact ⟨msg, by rw [processMigCacheForPower, hl]⟩
    · refine ⟨"Error computing active power", ?_⟩
      rw [processMigCacheForPower, hl]
      simp [cacheSum_zero, hi2]
  obtain ⟨msg, hproc⟩ := hproc
  simp [migDeviceResource, hc, hhead, hS, hv, hm, hproc]

/-- C3 witness: the fallback at a concrete all-zero single-entry cache. -/
theorem C3_witness :
    (∀ e ∈ [c3Entry], e.resourceCache = (⟨0, 0, 0, 0, 0⟩ : MigResourceCache)) ∧
    migDeviceResource "200" "3g.20gb" "0" 0 c1PowerCounter
      (fun g => if g = 0 then some [c3Entry] else none) =
      some (formatF ((200 - goMin 90 200) * ((3 : Nat) : ℚ) / 7 +
        goMin 90 200 * ((3 : Nat) : ℚ) / 7)) :=
  ⟨fun e he => by rw [List.mem_singleton.mp he]; rfl,
   C3_zero_utilization_fallback "200" "3g.20gb" "0" 0 c1PowerCounter
     (fun g => if g = 0 then some [c3Entry] else none) [c3Entry] '3' 3 200
     rfl rfl rfl parseFloat_200 rfl
     (fun e he => by rw [List.mem_singleton.mp he]; rfl)
     (fun e he => by rw [List.mem_singleton.mp he]; decide)⟩

/-- When every entry's profile parses, the attribution loop succeeds and
returns the componentwise total of the weighted entries together with the
last weighted entry whose id matches the target. -/
lemma migLoop_parsed (id : String) :
    ∀ (m : List MigResources) (t : MigResourceCache) (i : MigResources),
      (∀ e ∈ m, (sliceOf e).isSome) →
      migLoop id m t i =
        .ok (m.foldl (fun a e => addCache a (wEntryOf e)) t,
             m.foldl (fun a e => if e.id = id then wMigOf e else a) i) := by
  intro m
  induction m with
  | nil => intro t i _; rfl
  | cons e rest ih =>
    intro t i hp
    have he := hp e (List.mem_cons_self _ _)
    cases hch : e.profile.data.head? with
    | none => rw [sliceOf, hch] at he; simp at he
    | some ch =>
      cases ha : atoiChar ch with
      | none => rw [sliceOf, hch] at he; simp [ha] at he
      | some s =>
        have hs : sliceOf e = some s := by
          rw [sliceOf, hch]; simp [ha]
        have hw : weightedEntry (s : ℚ) e.resourceCache = wEntryOf e := by
          rw [wEntryOf, hs]; rfl
        have hwm : { e with resourceCache := weightedEntry (s : ℚ) e.resourceCache } =
            wMigOf e := by
          rw [wMigOf, hw]
        simp only [migLoop, hch, ha, hw, hwm, List.foldl_cons]
        exact ih _ _ (fun x hx => hp x (List.mem_cons_of_mem _ hx))

/-- The five-dimension sum distributes over the componentwise addition. -/
lemma cacheSum_add (a b : MigResourceCache) :
    cacheSum (addCache a b) = cacheSum a + cacheSum b := by
  cases a; cases b; simp [cacheSum, addCache]; ring

/-- The total accumulated by the loop is the sum of the weighted masses. -/
lemma cacheSum_foldl :
    ∀ (m : List MigResources) (t : MigResourceCache),
      cacheSum (m.foldl (fun a e => addCache a (wEntryOf e)) t) =
        cacheSum t + (m.map wsum).sum := by
  intro m
  induction m with
  | nil => intro t; simp
  | cons e rest ih =>
    intro t
    rw [List.foldl_cons, ih, cacheSum_add, List.map_cons, List.sum_cons, wsum]
    ring

/-- Folding the pick-last update over entries none of which carry the
target id leaves the accumulator unchanged. -/
lemma foldl_pick_notmem (id : String) :
    ∀ (m : List MigResources) (i : MigResources), (∀ x ∈ m, x.id ≠ id) →
      m.foldl (fun a x => if x.id = id then wMigOf x else a) i = i := by
  intro m
  induction m with
  | nil => intro i _; rfl
  | cons x rest ih =>
    intro i h
    rw [List.foldl_cons, if_neg (h x (List.mem_cons_self _ _))]
    exact ih i (fun y hy => h y (List.mem_cons_of_mem _ hy))

/-- With pairwise-distinct entry ids, the loop's `mig_instance` for a
member's id is exactly that member, weighted. -/
lemma foldl_pick_unique (e : MigResources) :
    ∀ (m : List MigResources) (i : MigResources), e ∈ m →
      (m.map (fun x => x.id)).Nodup →
      m.foldl (fun a x => if x.id = e.id then wMigOf x else a) i = wMigOf e := by
  intro m
  induction m with
  | nil => intro i h; cases h
  | cons x rest ih =>
    intro i hmem hnd
    rw [List.map_cons, List.nodup_cons] at hnd
    rcases List.mem_cons.mp hmem with rfl | hmem
    · rw [List.foldl_cons, if_pos rfl]
      refine foldl_pick_notmem e.id rest (wMigOf e) ?_
      intro y hy hcontra
      exact hnd.1 (hcontra ▸ List.mem_map_of_mem (fun x => x.id) hy)
    · have hxne : x.id ≠ e.id := by
        intro hcontra
        exact hnd.1 (hcontra ▸ List.mem_map_of_mem (fun x => x.id) hmem)
      rw [List.foldl_cons, if_neg hxne]
      exact ih i hmem hnd.2

/-- Each weighted utilization mass is nonnegative when the five raw
dimensions are. -/
lemma wsum_nonneg (e : MigResources)
    (h : 0 ≤ e.resourceCache.tensor ∧ 0 ≤ e.resourceCache.dram ∧
      0 ≤ e.resourceCache.fp64 ∧ 0 ≤ e.resourceCache.fp32 ∧
      0 ≤ e.resourceCache.fp16) : 0 ≤ wsum e := by
  obtain ⟨h1, h2, h3, h4, h5⟩ := h
  have hs : (0 : ℚ) ≤ (((sliceOf e).getD 0 : Nat) : ℚ) := Nat.cast_nonneg _
  have hw : ∀ x w : ℚ, 0 ≤ x → 0 ≤ w →
      0 ≤ x * (((sliceOf e).getD 0 : Nat) : ℚ) * w :=
    fun x w hx hwp => mul_nonneg (mul_nonneg hx hs) hwp
  rw [wsum, wEntryOf, cacheSum, weightedEntry]
  refine add_nonneg (add_nonneg (add_nonneg (add_nonneg ?_ ?_) ?_) ?_) ?_
  · exact hw _ _ h1 (by norm_num [featureWeights])
  · exact hw _ _ h2 (by norm_num [featureWeights])
  · exact hw _ _ h3 (by norm_num [featureWeights])
  · exact hw _ _ h4 (by norm_num [featureWeights])
  · exact hw _ _ h5 (by norm_num [featureWeights])

/-- A list of nonnegative rationals with a nonzero member has positive
sum. -/
lemma sum_pos_of_mem :
    ∀ (l : List ℚ) (x : ℚ), x ∈ l → 0 < x → (∀ y ∈ l, 0 ≤ y) → 0 < l.sum := by
  intro l
  induction l with
  | nil => intro x hx; cases hx
  | cons a rest ih =>
    intro x hx hpos hnn
    rw [List.sum_cons]
    rcases List.mem_cons.mp hx with rfl | hx
    · have : (0 : ℚ) ≤ rest.sum :=
        List.sum_nonneg (fun y hy => hnn y (List.mem_cons_of_mem _ hy))
      linarith
    · have ha : (0 : ℚ) ≤ a := hnn a (List.mem_cons_self _ _)
      have : (0 : ℚ) < rest.sum :=
        ih x hx hpos (fun y hy => hnn y (List.mem_cons_of_mem _ hy))
      linarith

/-- Pulling a constant factor out of a mapped list sum. -/
lemma sum_map_mul_left_q (r : ℚ) (f : MigResources → ℚ) :
    ∀ l : List MigResources, (l.map fun e => r * f e).sum = r * (l.map f).sum := by
  intro l
  induction l with
  | nil => simp
  | cons e rest ih => simp [ih]; ring

/-- C2: when every cached profile parses, utilizations are nonnegative,
some entry has nonzero weighted utilization, and the entries carry
pairwise-distinct instance ids, the attribution succeeds for every entry
of the GPU's cache and the attributed active shares sum exactly to the
GPU's active power. -/
theorem C2_active_power_conservation (m : List MigResources) (active : ℚ)
    (hparse : ∀ e ∈ m, (sliceOf e).isSome)
    (hnonneg : ∀ e ∈ m, 0 ≤ e.resourceCache.tensor ∧ 0 ≤ e.resourceCache.dram ∧
      0 ≤ e.resourceCache.fp64 ∧ 0 ≤ e.resourceCache.fp32 ∧
      0 ≤ e.resourceCache.fp16)
    (hnz : ∃ e ∈ m, wsum e ≠ 0)
    (hids : (m.map (fun e => e.id)).Nodup) :
    (∀ e ∈ m, processMigCacheForPower m e.id active =
       .ok (some (active * wsum e / (m.map wsum).sum))) ∧
    (m.map (fun e => (processMigCacheForPower m e.id active).okFinD)).sum =
      active := by
  obtain ⟨e0, he0, hne0⟩ := hnz
  have hnnall : ∀ y ∈ m.map wsum, (0 : ℚ) ≤ y := by
    intro y hy
    obtain ⟨x, hx, rfl⟩ := List.mem_map.mp hy
    exact wsum_nonneg x (hnonneg x hx)
  have hTpos : 0 < (m.map wsum).sum :=
    sum_pos_of_mem _ (wsum e0) (List.mem_map_of_mem wsum he0)
      (lt_of_le_of_ne (wsum_nonneg e0 (hnonneg e0 he0)) (Ne.symm hne0)) hnnall
  have hT : (m.map wsum).sum ≠ 0 := ne_of_gt hTpos
  have hmain : ∀ e ∈ m, processMigCacheForPower m e.id active =
      .ok (some (active * wsum e / (m.map wsum).sum)) := by
    intro e he
    rw [processMigCacheForPower, migLoop_parsed e.id m _ _ hparse,
      foldl_pick_unique e m _ he hids]
    have hst : cacheSum (m.foldl (fun a x => addCache a (wEntryOf x)) ⟨0, 0, 0, 0, 0⟩) =
        (m.map wsum).sum := by
      rw [cacheSum_foldl, cacheSum_zero, zero_add]
    simp only [hst, if_neg hT]
    rfl
  refine ⟨hmain, ?_⟩
  have hmap : m.map (fun e => (processMigCacheForPower m e.id active).okFinD) =
      m.map (fun e => active / (m.map wsum).sum * wsum e) := by
    apply List.map_congr_left
    intro e he
    rw [hmain e he]
    show active * wsum e / (m.map wsum).sum = active / (m.map wsum).sum * wsum e
    ring
  rw [hmap, sum_map_mul_left_q, div_mul_cancel₀ active hT]

/-- C2 witness: the spec's two-partition scenario, where the attributed
active shares of the 3-slice and 4-slice instances sum back to the active
power 110. -/
theorem C2_witness :
    ((c2m.map (fun e => e.id)).Nodup) ∧
    (c2m.map (fun e => (processMigCacheForPower c2m e.id 110).okFinD)).sum =
      110 := by
  have hs1 : sliceOf c2e1 = some 3 := rfl
  have hr1 : c2e1.resourceCache = (⟨1/2, 0, 0, 0, 0⟩ : MigResourceCache) := rfl
  have hnz : wsum c2e1 ≠ 0 := by
    rw [wsum, wEntryOf, hs1, hr1]
    norm_num [cacheSum, weightedEntry, featureWeights]
  refine ⟨by decide, ?_⟩
  refine (C2_active_power_conservation c2m 110 (by decide) ?_
    ⟨c2e1, List.mem_cons_self _ _, hnz⟩ (by decide)).2
  intro e he
  rcases List.mem_cons.mp he with rfl | he
  · rw [hr1]; norm_num
  · rw [List.mem_singleton.mp he,
      show c2e2.resourceCache = (⟨1/10, 0, 0, 0, 0⟩ : MigResourceCache) from rfl]
    norm_num

/-- Value of `optAppend` on an absent key is driven by emptiness of the entries. -/
lemma optAppend_none (es : List MigResources) :
    optAppend none es = if es.isEmpty then none else some es := by
  cases es <;> rfl

/-- Absorbing one appended entry into the pending entry list. -/
lemma optAppend_snoc (o : Option (List MigResources)) (e : MigResources)
    (es : List MigResources) :
    optAppend (some ((o.getD []) ++ [e])) es = optAppend o (e :: es) := by
  cases o <;> simp [optAppend]

/-- Pointwise description of the accumulated cache map: the value at `g`
is the starting value extended by the entries of the partitions that live
on GPU `g`, in list order. -/
lemma foldl_mapAppend_lookup :
    ∀ (l : List MonitoringInfo) (acc : Nat → Option (List MigResources)) (g : Nat),
      (l.foldl (fun a mi => mapAppend a mi.deviceInfo.gpu (migEntryOf mi)) acc) g =
        optAppend (acc g)
          ((l.filter (fun mi => mi.deviceInfo.gpu == g)).map migEntryOf) := by
  intro l
  induction l with
  | nil =>
    intro acc g
    rw [List.foldl_nil, List.filter_nil, List.map_nil]
    cases acc g <;> simp [optAppend]
  | cons mi rest ih =>
    intro acc g
    rw [List.foldl_cons, ih]
    by_cases hk : mi.deviceInfo.gpu = g
    · rw [List.filter_cons_of_pos (by simpa using hk), List.map_cons]
      rw [show mapAppend acc mi.deviceInfo.gpu (migEntryOf mi) g =
            some ((acc mi.deviceInfo.gpu).getD [] ++ [migEntryOf mi]) by
          rw [mapAppend, if_pos hk.symm]]
      rw [hk, optAppend_snoc]
    · rw [List.filter_cons_of_neg (by simpa using hk)]
      rw [show mapAppend acc mi.deviceInfo.gpu (migEntryOf mi) g = acc g by
          rw [mapAppend, if_neg (fun hgk => hk hgk.symm)]]

/-- When every entity carries instance metadata, the builder loop returns
the accumulated map. -/
lemma generateMigCacheGo_some :
    ∀ (l : List MonitoringInfo) (acc : Nat → Option (List MigResources)),
      (∀ mi ∈ l, mi.instanceInfo.isSome) →
      generateMigCacheGo l acc =
        some (l.foldl (fun a mi => mapAppend a mi.deviceInfo.gpu (migEntryOf mi)) acc) := by
  intro l
  induction l with
  | nil => intro acc _; rfl
  | cons mi rest ih =>
    intro acc hall
    have hmi := hall mi (List.mem_cons_self _ _)
    cases hii : mi.instanceInfo with
    | none => rw [hii] at hmi; simp at hmi
    | some ii =>
      rw [List.foldl_cons]
      rw [show generateMigCacheGo (mi :: rest) acc =
            generateMigCacheGo rest (mapAppend acc mi.deviceInfo.gpu (migEntryOf mi)) by
          simp only [generateMigCacheGo, hii]]
      exact ih _ (fun x hx => hall x (List.mem_cons_of_mem _ hx))

/-- As soon as the builder reaches an entity without instance metadata it
returns the nil cache, discarding everything accumulated so far. -/
lemma generateMigCacheGo_none :
    ∀ (l : List MonitoringInfo) (acc : Nat → Option (List MigResources))
      (mi0 : MonitoringInfo), mi0 ∈ l → mi0.instanceInfo = none →
      generateMigCacheGo l acc = none := by
  intro l
  induction l with
  | nil => intro acc mi0 h; cases h
  | cons mi rest ih =>
    intro acc mi0 hmem h0
    cases hii : mi.instanceInfo with
    | none => simp only [generateMigCacheGo, hii]
    | some ii =>
      rcases List.mem_cons.mp hmem with rfl | hmem
      · rw [hii] at h0; cases h0
      · rw [show generateMigCacheGo (mi :: rest) acc =
              generateMigCacheGo rest (mapAppend acc mi.deviceInfo.gpu (migEntryOf mi)) by
            simp only [generateMigCacheGo, hii]]
        exact ih _ mi0 hmem h0

/-- C4 (amended): when every monitored entity is a MIG partition, the
cache maps each GPU index to exactly the entries of that GPU's partitions
in list order, never overwriting earlier ones, with skip or unparsable
utilization samples defaulted to zero inside `migEntryOf`; but the moment
the list contains any entity without instance metadata — in particular
whenever it contains no MIG partitions at all — the builder returns the
nil cache with no entries. -/
theorem C4_mig_cache_shape :
    (∀ l : List MonitoringInfo, (∀ mi ∈ l, mi.instanceInfo.isSome) →
       (generateMigCache l).isSome ∧
       ∀ g, ((generateMigCache l).getD (fun _ => none)) g =
         (if ((l.filter (fun mi => mi.deviceInfo.gpu == g)).map migEntryOf).isEmpty
          then none
          else some ((l.filter (fun mi => mi.deviceInfo.gpu == g)).map migEntryOf))) ∧
    (∀ (l : List MonitoringInfo) (mi0 : MonitoringInfo), mi0 ∈ l →
       mi0.instanceInfo = none → generateMigCache l = none) := by
  constructor
  · intro l hall
    rw [generateMigCache, generateMigCacheGo_some l _ hall]
    refine ⟨rfl, ?_⟩
    intro g
    rw [Option.getD_some, foldl_mapAppend_lookup l _ g, optAppend_none]
  · intro l mi0 hmem h0
    exact generateMigCacheGo_none l _ mi0 hmem h0

/-- C4 counterexample: a list holding one MIG partition of GPU zero and
one plain GPU entity yields the nil cache — no GPU index maps to the
partition's entry, although the claim promises one entry per MIG partition
appearing in the list for every monitored-entity list. -/
theorem C4_counterexample :
    generateMigCache [c4MigEntity, c4PlainGPU] = none := rfl

/-- C4 witness: on an all-MIG list the cache holds the partition's entry
under its GPU index. -/
theorem C4_witness :
    (∀ mi ∈ [c4MigEntity], mi.instanceInfo.isSome) ∧
    ((generateMigCache [c4MigEntity]).getD (fun _ => none)) 0 =
      some [migEntryOf c4MigEntity] :=
  ⟨by decide, (C4_mig_cache_shape.1 [c4MigEntity] (by decide)).2 0⟩

/-- Folding the switch builder step from a propagated panic stays a
panic. -/
lemma foldl_toSwitchMetricStep_none (c : List Counter) :
    ∀ vals : List FieldValue,
      vals.foldl (toSwitchMetricStep c) none = none := by
  intro vals
  induction vals with
  | nil => rfl
  | cons v rest ih => simpa [toSwitchMetricStep] using ih

/-- The label map a GPU builder pass ends with is the fold of its label
pairs over the starting map. -/
lemma toMetricStep_labels (c : List Counter) (d : Device)
    (ii : Option GPUInstanceInfo) (cache : Nat → Option (List MigResources)) :
    ∀ (vals : List FieldValue) (l0 : String → Option String)
      (ms0 : List (Counter × String)) (l : String → Option String)
      (ms : List (Counter × String)),
      vals.foldl (toMetricStep c d ii cache) (some (l0, ms0)) = some (l, ms) →
      l = (migLabelPairs c vals).foldl (fun g q => insertLabel g q.1 q.2) l0 := by
  intro vals
  induction vals with
  | nil =>
    intro l0 ms0 l ms h
    simp only [List.foldl_nil, Option.some.injEq, Prod.mk.injEq] at h
    rw [migLabelPairs, List.filterMap_nil, List.foldl_nil, ← h.1]
  | cons val rest ih =>
    intro l0 ms0 l ms h
    rw [List.foldl_cons] at h
    rw [migLabelPairs, List.filterMap_cons]
    by_cases hskip : ToString val = SkipDCGMValue
    · rw [show migLabelPair c val = none by simp [migLabelPair, hskip]]
      rw [show toMetricStep c d ii cache (some (l0, ms0)) val = some (l0, ms0) by
        simp [toMetricStep, hskip]] at h
      exact ih l0 ms0 l ms h
    · cases hf : FindCounterField c val.fieldId with
      | none =>
        rw [show toMetricStep c d ii cache (some (l0, ms0)) val = none by
            simp [toMetricStep, hskip, hf]] at h
        rw [foldl_toMetricStep_none] at h
        exact absurd h (by simp)
      | some r =>
        cases r with
        | error e =>
          rw [show migLabelPair c val = none by simp [migLabelPair, hskip, hf]]
          rw [show toMetricStep c d ii cache (some (l0, ms0)) val = some (l0, ms0) by
            simp [toMetricStep, hskip, hf]] at h
          exact ih l0 ms0 l ms h
        | ok ctr =>
          by_cases hlab : ctr.promType = "label"
          · rw [show migLabelPair c val = some (ctr.fieldName, ToString val) by
                simp [migLabelPair, hskip, hf, hlab]]
            rw [show toMetricStep c d ii cache (some (l0, ms0)) val =
                some (insertLabel l0 ctr.fieldName (ToString val), ms0) by
              simp [toMetricStep, hskip, hf, hlab]] at h
            rw [List.foldl_cons]
            exact ih _ ms0 l ms h
          · rw [show migLabelPair c val = none by simp [migLabelPair, hskip, hf, hlab]]
            cases hii : ii with
            | none =>
              rw [hii] at h
              rw [show toMetricStep c d none cache (some (l0, ms0)) val =
                  some (l0, ms0 ++ [(ctr, ToString val)]) by
                simp [toMetricStep, hskip, hf, hlab]] at h
              exact ih l0 _ l ms (hii ▸ h)
            | some info =>
              rw [hii] at h
              cases hmig : migDeviceResource (ToString val) info.profileName
                  (Nat.repr info.info.nvmlInstanceId) d.gpu ctr cache with
              | none =>
                rw [show toMetricStep c d (some info) cache (some (l0, ms0)) val = none by
                    simp [toMetricStep, hskip, hf, hlab, hmig]] at h
                rw [foldl_toMetricStep_none] at h
                exact absurd h (by simp)
              | some v2 =>
                rw [show toMetricStep c d (some info) cache (some (l0, ms0)) val =
                    some (l0, ms0 ++ [(ctr, v2)]) by
                  simp [toMetricStep, hskip, hf, hlab, hmig]] at h
                exact ih l0 _ l ms (hii ▸ h)

/-- No pair appended by a GPU builder pass carries a label-typed
counter. -/
lemma toMetricStep_no_label (c : List Counter) (d : Device)
    (ii : Option GPUInstanceInfo) (cache : Nat → Option (List MigResources)) :
    ∀ (vals : List FieldValue) (l0 : String → Option String)
      (ms0 : List (Counter × String)) (l : String → Option String)
      (ms : List (Counter × String)),
      vals.foldl (toMetricStep c d ii cache) (some (l0, ms0)) = some (l, ms) →
      (∀ p ∈ ms0, p.1.promType ≠ "label") →
      ∀ p ∈ ms, p.1.promType ≠ "label" := by
  intro vals
  induction vals with
  | nil =>
    intro l0 ms0 l ms h h0
    simp only [List.foldl_nil, Option.some.injEq, Prod.mk.injEq] at h
    exact h.2 ▸ h0
  | cons val rest ih =>
    intro l0 ms0 l ms h h0
    rw [List.foldl_cons] at h
    by_cases hskip : ToString val = SkipDCGMValue
    · rw [show toMetricStep c d ii cache (some (l0, ms0)) val = some (l0, ms0) by
        simp [toMetricStep, hskip]] at h
      exact ih l0 ms0 l ms h h0
    · cases hf : FindCounterField c val.fieldId with
      | none =>
        rw [show toMetricStep c d ii cache (some (l0, ms0)) val = none by
            simp [toMetricStep, hskip, hf]] at h
        rw [foldl_toMetricStep_none] at h
        exact absurd h (by simp)
      | some r =>
        cases r with
        | error e =>
          rw [show toMetricStep c d ii cache (some (l0, ms0)) val = some (l0, ms0) by
            simp [toMetricStep, hskip, hf]] at h
          exact ih l0 ms0 l ms h h0
        | ok ctr =>
          by_cases hlab : ctr.promType = "label"
          · rw [show toMetricStep c d ii cache (some (l0, ms0)) val =
                some (insertLabel l0 ctr.fieldName (ToString val), ms0) by
              simp [toMetricStep, hskip, hf, hlab]] at h
            exact ih _ ms0 l ms h h0
          · have hstep : ∀ ms1, (∀ p ∈ ms1, p.1.promType ≠ "label") →
                rest.foldl (toMetricStep c d ii cache) (some (l0, ms1)) = some (l, ms) →
                ∀ p ∈ ms, p.1.promType ≠ "label" := fun ms1 h1 hh => ih l0 ms1 l ms hh h1
            have happ : ∀ v2, (∀ p ∈ ms0 ++ [(ctr, v2)], p.1.promType ≠ "label") := by
              intro v2 p hp
              rcases List.mem_append.mp hp with h1 | h1
              · exact h0 p h1
              · rw [List.mem_singleton.mp h1]; exact hlab
            cases hii : ii with
            | none =>
              rw [hii] at h
              rw [show toMetricStep c d none cache (some (l0, ms0)) val =
                  some (l0, ms0 ++ [(ctr, ToString val)]) by
                simp [toMetricStep, hskip, hf, hlab]] at h
              exact hstep _ (happ _) (hii ▸ h)
            | some info =>
              rw [hii] at h
              cases hmig : migDeviceResource (ToString val) info.profileName
                  (Nat.repr info.info.nvmlInstanceId) d.gpu ctr cache with
              | none =>
                rw [show toMetricStep c d (some info) cache (some (l0, ms0)) val = none by
                    simp [toMetricStep, hskip, hf, hlab, hmig]] at h
                rw [foldl_toMetricStep_none] at h
                exact absurd h (by simp)
              | some v2 =>
                rw [show toMetricStep c d (some info) cache (some (l0, ms0)) val =
                    some (l0, ms0 ++ [(ctr, v2)]) by
                  simp [toMetricStep, hskip, hf, hlab, hmig]] at h
                exact hstep _ (happ _) (hii ▸ h)

/-- The label map a switch or CPU builder pass ends with is the fold of
its label pairs over the starting map. -/
lemma toSwitchMetricStep_labels (c : List Counter) :
    ∀ (vals : List FieldValue) (l0 : String → Option String)
      (ms0 : List (Counter × String)) (l : String → Option String)
      (ms : List (Counter × String)),
      vals.foldl (toSwitchMetricStep c) (some (l0, ms0)) = some (l, ms) →
      l = (switchLabelPairs c vals).foldl (fun g q => insertLabel g q.1 q.2) l0 := by
  intro vals
  induction vals with
  | nil =>
    intro l0 ms0 l ms h
    simp only [List.foldl_nil, Option.some.injEq, Prod.mk.injEq] at h
    rw [switchLabelPairs, List.filterMap_nil, List.foldl_nil, ← h.1]
  | cons val rest ih =>
    intro l0 ms0 l ms h
    rw [List.foldl_cons] at h
    rw [switchLabelPairs, List.filterMap_cons]
    cases hf : FindCounterField c val.fieldId with
    | none =>
      rw [show toSwitchMetricStep c (some (l0, ms0)) val = none by
          simp [toSwitchMetricStep, hf]] at h
      rw [foldl_toSwitchMetricStep_none] at h
      exact absurd h (by simp)
    | some r =>
      cases r with
      | error e =>
        rw [show switchLabelPair c val = none by simp [switchLabelPair, hf]]
        rw [show toSwitchMetricStep c (some (l0, ms0)) val = some (l0, ms0) by
          simp [toSwitchMetricStep, hf]] at h
        exact ih l0 ms0 l ms h
      | ok ctr =>
        by_cases hlab : ctr.promType = "label"
        · rw [show switchLabelPair c val = some (ctr.fieldName, ToString val) by
              simp [switchLabelPair, hf, hlab]]
          rw [show toSwitchMetricStep c (some (l0, ms0)) val =
              some (insertLabel l0 ctr.fieldName (ToString val), ms0) by
            simp [toSwitchMetricStep, hf, hlab]] at h
          rw [List.foldl_cons]
          exact ih _ ms0 l ms h
        · rw [show switchLabelPair c val = none by simp [switchLabelPair, hf, hlab]]
          by_cases hskip : ToString val = SkipDCGMValue
          · rw [show toSwitchMetricStep c (some (l0, ms0)) val = some (l0, ms0) by
              simp [toSwitchMetricStep, hf, hlab, hskip]] at h
            exact ih l0 ms0 l ms h
          · rw [show toSwitchMetricStep c (some (l0, ms0)) val =
                some (l0, ms0 ++ [(ctr, ToString val)]) by
              simp [toSwitchMetricStep, hf, hlab, hskip]] at h
            exact ih l0 _ l ms h

/-- No pair appended by a switch or CPU builder pass carries a label-typed
counter. -/
lemma toSwitchMetricStep_no_label (c : List Counter) :
    ∀ (vals : List FieldValue) (l0 : String → Option String)
      (ms0 : List (Counter × String)) (l : String → Option String)
      (ms : List (Counter × String)),
      vals.foldl (toSwitchMetricStep c) (some (l0, ms0)) = some (l, ms) →
      (∀ p ∈ ms0, p.1.promType ≠ "label") →
      ∀ p ∈ ms, p.1.promType ≠ "label" := by
  intro vals
  induction vals with
  | nil =>
    intro l0 ms0 l ms h h0
    simp only [List.foldl_nil, Option.some.injEq, Prod.mk.injEq] at h
    exact h.2 ▸ h0
  | cons val rest ih =>
    intro l0 ms0 l ms h h0
    rw [List.foldl_cons] at h
    cases hf : FindCounterField c val.fieldId with
    | none =>
      rw [show toSwitchMetricStep c (some (l0, ms0)) val = none by
          simp [toSwitchMetricStep, hf]] at h
      rw [foldl_toSwitchMetricStep_none] at h
      exact absurd h (by simp)
    | some r =>
      cases r with
      | error e =>
        rw [show toSwitchMetricStep c (some (l0, ms0)) val = some (l0, ms0) by
          simp [toSwitchMetricStep, hf]] at h
        exact ih l0 ms0 l ms h h0
      | ok ctr =>
        by_cases hlab : ctr.promType = "label"
        · rw [show toSwitchMetricStep c (some (l0, ms0)) val =
              some (insertLabel l0 ctr.fieldName (ToString val), ms0) by
            simp [toSwitchMetricStep, hf, hlab]] at h
          exact ih _ ms0 l ms h h0
        · by_cases hskip : ToString val = SkipDCGMValue
          · rw [show toSwitchMetricStep c (some (l0, ms0)) val = some (l0, ms0) by
              simp [toSwitchMetricStep, hf, hlab, hskip]] at h
            exact ih l0 ms0 l ms h h0
          · rw [show toSwitchMetricStep c (some (l0, ms0)) val =
                some (l0, ms0 ++ [(ctr, ToString val)]) by
              simp [toSwitchMetricStep, hf, hlab, hskip]] at h
            refine ih l0 _ l ms h ?_
            intro p hp
            rcases List.mem_append.mp hp with h1 | h1
            · exact h0 p h1
            · rw [List.mem_singleton.mp h1]; exact hlab

/-- Folding label insertions whose keys avoid `k` leaves the map at `k`
unchanged. -/
lemma foldl_insertLabel_notmem :
    ∀ (ps : List (String × String)) (f : String → Option String) (k : String),
      (∀ p ∈ ps, p.1 ≠ k) →
      (ps.foldl (fun g q => insertLabel g q.1 q.2) f) k = f k := by
  intro ps
  induction ps with
  | nil => intro f k _; rfl
  | cons q rest ih =>
    intro f k h
    rw [List.foldl_cons, ih _ k (fun p hp => h p (List.mem_cons_of_mem _ hp))]
    rw [insertLabel, if_neg (fun hk => h q (List.mem_cons_self _ _) hk.symm)]

/-- With pairwise-distinct keys, the folded label map holds every inserted
pair. -/
lemma foldl_insertLabel_mem :
    ∀ (ps : List (String × String)) (f : String → Option String)
      (p : String × String), p ∈ ps → (ps.map Prod.fst).Nodup →
      (ps.foldl (fun g q => insertLabel g q.1 q.2) f) p.1 = some p.2 := by
  intro ps
  induction ps with
  | nil => intro f p h; cases h
  | cons q rest ih =>
    intro f p hmem hnd
    rw [List.map_cons, List.nodup_cons] at hnd
    rw [List.foldl_cons]
    rcases List.mem_cons.mp hmem with rfl | hmem
    · rw [foldl_insertLabel_notmem rest _ p.1
        (fun x hx hcontra => hnd.1 (hcontra ▸ List.mem_map_of_mem Prod.fst hx))]
      rw [insertLabel, if_pos rfl]
    · exact ih _ p hmem hnd.2

/-- C7: in one builder pass (GPU/MIG or switch/link), a sample resolved to
a label-typed counter never becomes a value metric, and — when the pass's
label names are distinct — every emitted value metric's label set holds
every label pair of the pass, regardless of order of encounter. -/
theorem C7_label_aggregation :
    (∀ (values : List FieldValue) (c : List Counter) (d : Device)
       (ii : Option GPUInstanceInfo) (useOld : Bool) (hostname : String)
       (rb : Bool) (cache : Nat → Option (List MigResources)) (out : List Metric),
       ToMetric values c d ii useOld hostname rb cache = some out →
       ((migLabelPairs c values).map Prod.fst).Nodup →
       (∀ m ∈ out, m.counter.promType ≠ "label") ∧
       (∀ p ∈ migLabelPairs c values, ∀ m ∈ out, m.labels p.1 = some p.2)) ∧
    (∀ (values : List FieldValue) (c : List Counter) (mi : MonitoringInfo)
       (useOld : Bool) (hostname : String) (out : List Metric),
       ToSwitchMetric values c mi useOld hostname = some out →
       ((switchLabelPairs c values).map Prod.fst).Nodup →
       (∀ m ∈ out, m.counter.promType ≠ "label") ∧
       (∀ p ∈ switchLabelPairs c values, ∀ m ∈ out, m.labels p.1 = some p.2)) := by
  constructor
  · intro values c d ii useOld hostname rb cache out hout hnd
    rw [ToMetric, Option.map_eq_some'] at hout
    obtain ⟨st, hst, hout⟩ := hout
    subst hout
    constructor
    · intro m hm
      obtain ⟨cv, hcv, hmcv⟩ := List.mem_map.mp hm
      rw [← hmcv]
      exact toMetricStep_no_label c d ii cache values (fun _ => none) [] st.1 st.2
        hst (by simp) cv hcv
    · intro p hp m hm
      obtain ⟨cv, hcv, hmcv⟩ := List.mem_map.mp hm
      rw [← hmcv]
      show st.1 p.1 = some p.2
      rw [toMetricStep_labels c d ii cache values (fun _ => none) [] st.1 st.2 hst]
      exact foldl_insertLabel_mem _ _ p hp hnd
  · intro values c mi useOld hostname out hout hnd
    rw [ToSwitchMetric, Option.map_eq_some'] at hout
    obtain ⟨st, hst, hout⟩ := hout
    subst hout
    constructor
    · intro m hm
      obtain ⟨cv, hcv, hmcv⟩ := List.mem_map.mp hm
      rw [← hmcv]
      exact toSwitchMetricStep_no_label c values (fun _ => none) [] st.1 st.2
        hst (by simp) cv hcv
    · intro p hp m hm
      obtain ⟨cv, hcv, hmcv⟩ := List.mem_map.mp hm
      rw [← hmcv]
      show st.1 p.1 = some p.2
      rw [toSwitchMetricStep_labels c values (fun _ => none) [] st.1 st.2 hst]
      exact foldl_insertLabel_mem _ _ p hp hnd

/-- C7 witness: the value metric sampled before the label still carries
the label pair, and is not label-typed. -/
theorem C7_witness :
    ((migLabelPairs c7Counters c7Vals).map Prod.fst).Nodup ∧
    c7M.counter.promType ≠ "label" ∧
    c7M.labels "DCGM_FI_DEV_NAME" = some "A100" := by
  have h := C7_label_aggregation.1 c7Vals c7Counters ⟨0, "U", ⟨"A100"⟩⟩ none false
    "host" false (fun _ => none) c7Out rfl (by decide)
  exact ⟨by decide, h.1 c7M (List.Mem.head _),
    h.2 ("DCGM_FI_DEV_NAME", "A100") (by decide) c7M (List.Mem.head _)⟩

/-- The GPU builder step ignores skip-valued samples entirely. -/
lemma toMetricStep_skip (c : List Counter) (d : Device)
    (ii : Option GPUInstanceInfo) (cache : Nat → Option (List MigResources))
    (st : Option BuilderState) (val : FieldValue)
    (h : ToString val = SkipDCGMValue) :
    toMetricStep c d ii cache st val = st := by
  cases st with
  | none => rfl
  | some s => cases s with | mk labels ms => simp [toMetricStep, h]

/-- A non-empty counter list never makes `FindCounterField` panic. -/
lemma FindCounterField_ne_none (c : List Counter) (fid : Nat) (h : c ≠ []) :
    FindCounterField c fid ≠ none := by
  cases hf : c.find? (fun x => x.fieldID == fid) with
  | some ctr => simp [FindCounterField, hf]
  | none =>
    cases c with
    | nil => exact absurd rfl h
    | cons a t => simp [FindCounterField, hf]

/-- Projecting the builder state to its pair list commutes with the
switch step. -/
lemma toSwitchMetricStep_proj (c : List Counter) (st : Option BuilderState)
    (val : FieldValue) :
    (toSwitchMetricStep c st val).map (fun s => s.2) =
      switchMsStep c (st.map (fun s => s.2)) val := by
  cases st with
  | none => rfl
  | some s =>
    cases s with
    | mk labels ms =>
      cases hf : FindCounterField c val.fieldId with
      | none => simp [toSwitchMetricStep, switchMsStep, hf]
      | some r =>
        cases r with
        | error e => simp [toSwitchMetricStep, switchMsStep, hf]
        | ok ctr =>
          by_cases hlab : ctr.promType = "label"
          · simp [toSwitchMetricStep, switchMsStep, hf, hlab]
          · by_cases hskip : ToString val = SkipDCGMValue
            · simp [toSwitchMetricStep, switchMsStep, hf, hlab, hskip]
            · simp [toSwitchMetricStep, switchMsStep, hf, hlab, hskip]

/-- Projecting the builder state to its pair list commutes with folding
the switch step. -/
lemma foldl_switch_proj (c : List Counter) :
    ∀ (vals : List FieldValue) (st : Option BuilderState),
      (vals.foldl (toSwitchMetricStep c) st).map (fun s => s.2) =
        vals.foldl (switchMsStep c) (st.map (fun s => s.2)) := by
  intro vals
  induction vals with
  | nil => intro st; rfl
  | cons val rest ih =>
    intro st
    rw [List.foldl_cons, List.foldl_cons, ih, toSwitchMetricStep_proj]

/-- On a non-empty counter list, a skip-valued sample appends no pair in a
switch or CPU pass. -/
lemma switchMsStep_skip (c : List Counter) (hc : c ≠ [])
    (ms : List (Counter × String)) (val : FieldValue)
    (hskip : ToString val = SkipDCGMValue) :
    switchMsStep c (some ms) val = some ms := by
  cases hf : FindCounterField c val.fieldId with
  | none => exact absurd hf (FindCounterField_ne_none c val.fieldId hc)
  | some r =>
    cases r with
    | error e => simp [switchMsStep, hf]
    | ok ctr =>
      by_cases hlab : ctr.promType = "label"
      · simp [switchMsStep, hf, hlab]
      · simp [switchMsStep, hf, hlab, hskip]

/-- Projecting attached metric records back to their pairs recovers the
pair list. -/
lemma map_counter_value (f : Counter × String → Metric)
    (hf : ∀ cv, ((f cv).counter, (f cv).value) = cv)
    (l : List (Counter × String)) :
    List.map (fun m => (m.counter, m.value)) (List.map f l) = l := by
  rw [List.map_map, show ((fun (m : Metric) => (m.counter, m.value)) ∘ f) =
    (fun cv => cv) from funext hf]
  exact l.map_id'

/-- The `(counter, value)` projection of a switch pass is the fold of the
pair-only step. -/
lemma ToSwitchMetric_proj (values : List FieldValue) (c : List Counter)
    (mi : MonitoringInfo) (useOld : Bool) (hostname : String) :
    (ToSwitchMetric values c mi useOld hostname).map
        (List.map fun m => (m.counter, m.value)) =
      (values.foldl (switchMsStep c) (some [])) := by
  have hp := foldl_switch_proj c values (some (fun _ => none, []))
  simp only [Option.map_some'] at hp
  rw [ToSwitchMetric, ← hp]
  cases values.foldl (toSwitchMetricStep c) (some (fun _ => none, [])) with
  | none => rfl
  | some st =>
    simp only [Option.map_some']
    exact congrArg some (map_counter_value _ (fun cv => rfl) st.2)

/-- The `(counter, value)` projection of a CPU pass is the fold of the
same pair-only step. -/
lemma ToCPUMetric_proj (values : List FieldValue) (c : List Counter)
    (mi : MonitoringInfo) (useOld : Bool) (hostname : String) :
    (ToCPUMetric values c mi useOld hostname).map
        (List.map fun m => (m.counter, m.value)) =
      (values.foldl (switchMsStep c) (some [])) := by
  have hp := foldl_switch_proj c values (some (fun _ => none, []))
  simp only [Option.map_some'] at hp
  rw [ToCPUMetric, toCPUMetricStep, ← hp]
  cases values.foldl (toSwitchMetricStep c) (some (fun _ => none, [])) with
  | none => rfl
  | some st =>
    simp only [Option.map_some']
    exact congrArg some (map_counter_value _ (fun cv => rfl) st.2)

/-- C8 (amended): the GPU/MIG builder drops a skip-valued sample before
resolution and classification, so inserting one changes nothing at all;
the switch/link and CPU builders never emit a value metric for a
skip-valued sample (their `(counter, value)` output is unchanged), but
since they classify labels before the skip test, a skip-valued label
sample does enter the label set. -/
theorem C8_skip_handling :
    (∀ (c : List Counter) (d : Device) (ii : Option GPUInstanceInfo)
       (useOld : Bool) (hostname : String) (rb : Bool)
       (cache : Nat → Option (List MigResources))
       (pre post : List FieldValue) (val : FieldValue),
       ToString val = SkipDCGMValue →
       ToMetric (pre ++ val :: post) c d ii useOld hostname rb cache =
         ToMetric (pre ++ post) c d ii useOld hostname rb cache) ∧
    (∀ (c : List Counter) (mi : MonitoringInfo) (useOld : Bool)
       (hostname : String) (pre post : List FieldValue) (val : FieldValue),
       c ≠ [] → ToString val = SkipDCGMValue →
       (ToSwitchMetric (pre ++ val :: post) c mi useOld hostname).map
           (List.map fun m => (m.counter, m.value)) =
         (ToSwitchMetric (pre ++ post) c mi useOld hostname).map
           (List.map fun m => (m.counter, m.value))) ∧
    (∀ (c : List Counter) (mi : MonitoringInfo) (useOld : Bool)
       (hostname : String) (pre post : List FieldValue) (val : FieldValue),
       c ≠ [] → ToString val = SkipDCGMValue →
       (ToCPUMetric (pre ++ val :: post) c mi useOld hostname).map
           (List.map fun m => (m.counter, m.value)) =
         (ToCPUMetric (pre ++ post) c mi useOld hostname).map
           (List.map fun m => (m.counter, m.value))) := by
  refine ⟨?_, ?_, ?_⟩
  · intro c d ii useOld hostname rb cache pre post val hskip
    rw [ToMetric, ToMetric, List.foldl_append, List.foldl_append, List.foldl_cons,
      toMetricStep_skip c d ii cache _ val hskip]
  · intro c mi useOld hostname pre post val hc hskip
    rw [ToSwitchMetric_proj, ToSwitchMetric_proj, List.foldl_append,
      List.foldl_append, List.foldl_cons]
    cases hX : pre.foldl (switchMsStep c) (some []) with
    | none => rfl
    | some ms => rw [switchMsStep_skip c hc ms val hskip]
  · intro c mi useOld hostname pre post val hc hskip
    rw [ToCPUMetric_proj, ToCPUMetric_proj, List.foldl_append,
      List.foldl_append, List.foldl_cons]
    cases hX : pre.foldl (switchMsStep c) (some []) with
    | none => rfl
    | some ms => rw [switchMsStep_skip c hc ms val hskip]

/-- C8 counterexample: in the switch builder a skip-valued sample that
resolves to a label-typed counter is not dropped before classification —
the emitted value metric's label set maps the label name to the skip
marker, so the skip-valued sample did contribute a label entry. -/
theorem C8_counterexample :
    ToString c8SkipVal = SkipDCGMValue ∧
    (c8Out.map fun m => m.labels "DCGM_FI_DEV_NAME") = [some SkipDCGMValue] :=
  ⟨rfl, rfl⟩

/-- C8 witness: removing a concrete skip-valued sample changes nothing in
the GPU pass, and changes no `(counter, value)` pair of the switch pass. -/
theorem C8_witness :
    ToString c8SkipVal = SkipDCGMValue ∧
    ToMetric [c8SkipVal] [c8GaugeCtr] ⟨0, "U", ⟨"A100"⟩⟩ none false "host" false
        (fun _ => none) =
      ToMetric [] [c8GaugeCtr] ⟨0, "U", ⟨"A100"⟩⟩ none false "host" false
        (fun _ => none) ∧
    (ToSwitchMetric [c8SkipVal] [c8GaugeCtr] c8mi false "host").map
        (List.map fun m => (m.counter, m.value)) =
      (ToSwitchMetric [] [c8GaugeCtr] c8mi false "host").map
        (List.map fun m => (m.counter, m.value)) :=
  ⟨rfl,
   C8_skip_handling.1 [c8GaugeCtr] ⟨0, "U", ⟨"A100"⟩⟩ none false "host" false
     (fun _ => none) [] [] c8SkipVal rfl,
   C8_skip_handling.2.1 [c8GaugeCtr] c8mi false "host" [] [] c8SkipVal
     (by decide) rfl⟩

end DcgmExporter
